import Mathlib

/-!
# DV / MRC image files (`src/dvfile.h`)

A shallow embedding of the header record `IW_MRC_Header`, the pixel type
registry `pixelTypeSizes`, the class `DVFile` and the IVE API over the handle
table `dvfile_map`, followed by theorems about section addressing, byte-order
detection, the header and frame round trips, titles and the handle table.

Conventions of the embedding:

* a C `int`/`int32_t`/`int16_t` value is an `Int`; every arithmetic operation
  of the source on `int` is wrapped with `wrapInt32`, conversions to `size_t`
  and to `std::streamoff` are `toSizeT` and `toStreamOff` (64-bit, modular);
* an `int` division has no value for a zero divisor and for `INT_MIN / -1`
  (`cDiv?`): the call that performs it does not return, and `num_planes?` and
  `DVFile.sizes` are `none` there;
* a `float` field is carried as its 32-bit pattern (a `Nat`): the file code
  only copies floats, it never computes with them;
* a `char` is a byte, a `Nat` below 256; the host is little-endian, so the
  object representation of the header is `IW_MRC_Header.encode`;
* a C++ member function that can throw is a function from the object to a
  pair: the outcome (`Except DVError _`) and the object after the call.
-/

namespace DV

/-! ## Machine integers -/

/-- Value of an `int` (`int32_t`) expression: two's-complement wrap to 32 bits. -/
def wrapInt32 (x : Int) : Int := (x + 2147483648) % 4294967296 - 2147483648

/-- Conversion of an integer value to `size_t` (unsigned 64-bit, modular). -/
def toSizeT (x : Int) : Int := x % 18446744073709551616

/-- Conversion of a `size_t` value to `std::streamoff` (signed 64-bit). -/
def toStreamOff (x : Int) : Int :=
  (x + 9223372036854775808) % 18446744073709551616 - 9223372036854775808

/-- Range of `int32_t`. -/
def isI32 (x : Int) : Prop := -2147483648 ≤ x ∧ x < 2147483648

/-- Range of `int16_t`. -/
def isI16 (x : Int) : Prop := -32768 ≤ x ∧ x < 32768

/-- Range of a 32-bit pattern (a `float` field). -/
def isF32 (n : Nat) : Prop := n < 4294967296

/-- A `char[n]` array: `n` bytes. -/
def isBytes (n : Nat) (l : List Nat) : Prop := l.length = n ∧ ∀ b ∈ l, b < 256

instance (x : Int) : Decidable (isI32 x) := by unfold isI32; infer_instance
instance (x : Int) : Decidable (isI16 x) := by unfold isI16; infer_instance
instance (n : Nat) : Decidable (isF32 n) := by unfold isF32; infer_instance
instance (n : Nat) (l : List Nat) : Decidable (isBytes n l) := by unfold isBytes; infer_instance

/-- C division `a / b` on `int`: truncation toward zero. There is no value for
a zero divisor, nor for `INT_MIN / -1`, whose quotient is not an `int`: the
behaviour is undefined and the division instruction traps, so the enclosing
call does not return. -/
def cDiv? (a b : Int) : Option Int :=
  if b = 0 ∨ (a = -2147483648 ∧ b = -1) then none else some (wrapInt32 (a.tdiv b))

/-! ## Errors -/

/-- The exceptions thrown in `dvfile.h`: one constructor per `throw` site
message, and `mapAt` for the `std::out_of_range` of `unordered_map::at`. -/
inductive DVError where
  | failedToOpen
  | failedToCreate
  | notRecognized (path : String)
  | readClosed
  | writeClosed
  | timeIndex
  | wavelengthIndex
  | sectionIndex
  | mapAt
  | streamNotFound (istream : Int)
  | invalidNtflag (ntflag : Int)
  deriving DecidableEq, Repr

deriving instance DecidableEq for Except

/-- The `what()` text of the `std::runtime_error`s, as written in the source. -/
def DVError.what : DVError → String
  | .failedToOpen => "Failed to open file"
  | .failedToCreate => "Failed to create file"
  | .notRecognized path => path ++ " is not a recognized DV file."
  | .readClosed => "Cannot read from closed file. Please reopen with .open()"
  | .writeClosed => "Cannot write to closed file. Please reopen with .open()"
  | .timeIndex => "Time index out of range"
  | .wavelengthIndex => "Wavelength index out of range"
  | .sectionIndex => "Section index out of range"
  | .mapAt => "unordered_map::at"
  | .streamNotFound istream => "Stream not found: " ++ toString istream
  | .invalidNtflag ntflag => "Invalid ntflag: " ++ toString ntflag

/-- The two messages thrown when `closed` is set. -/
def DVError.isClosedError : DVError → Bool
  | .readClosed => true
  | .writeClosed => true
  | _ => false

/-! ## Pixel type registry -/

def IW_AS_IS : Int := -1
def IW_BYTE : Int := 0
def IW_SHORT : Int := 1
def IW_FLOAT : Int := 2
def IW_COMPLEX_SHORT : Int := 3
def IW_COMPLEX : Int := 4
def IW_EMTOM : Int := 5
def IW_USHORT : Int := 6
def IW_LONG : Int := 7

/-- The table `pixelTypeSizes`, with `sizeof(uint8_t) = 1`, `sizeof(int16_t) = 2`,
`sizeof(float) = 4`, `sizeof(int32_t) = 4`. -/
def pixelTypeSizes : List (Int × Nat) :=
  [(IW_BYTE, 1), (IW_SHORT, 2), (IW_FLOAT, 4), (IW_COMPLEX_SHORT, 2 * 2),
   (IW_COMPLEX, 2 * 4), (IW_EMTOM, 2), (IW_USHORT, 2), (IW_LONG, 4)]

/-- The call `pixelTypeSizes.at(mode)`: throws `std::out_of_range` for an absent key. -/
def pixelTypeSizes_at (mode : Int) : Except DVError Nat :=
  match pixelTypeSizes.lookup mode with
  | some n => .ok n
  | none => .error .mapAt

/-! ## Object representation of scalars (little-endian host) -/

/-- Little-endian bytes of a 32-bit pattern. -/
def leU32 (n : Nat) : List Nat :=
  [n % 256, n / 256 % 256, n / 65536 % 256, n / 16777216 % 256]

/-- Little-endian bytes of a 16-bit pattern. -/
def leU16 (n : Nat) : List Nat := [n % 256, n / 256 % 256]

/-- Object representation of an `int32_t`. -/
def leI32 (x : Int) : List Nat := leU32 (x % 4294967296).toNat

/-- Object representation of an `int16_t`. -/
def leI16 (x : Int) : List Nat := leU16 (x % 65536).toNat

/-- The 32-bit pattern held by the first four bytes. -/
def rdU32 : List Nat → Nat
  | b0 :: b1 :: b2 :: b3 :: _ => b0 + 256 * b1 + 65536 * b2 + 16777216 * b3
  | _ => 0

/-- The 16-bit pattern held by the first two bytes. -/
def rdU16 : List Nat → Nat
  | b0 :: b1 :: _ => b0 + 256 * b1
  | _ => 0

/-- The `int32_t` held by the first four bytes. -/
def rdI32 (bs : List Nat) : Int :=
  if rdU32 bs < 2147483648 then (rdU32 bs : Int) else (rdU32 bs : Int) - 4294967296

/-- The `int16_t` held by the first two bytes. -/
def rdI16 (bs : List Nat) : Int :=
  if rdU16 bs < 32768 then (rdU16 bs : Int) else (rdU16 bs : Int) - 65536

/-! ## Header record -/

/-- The struct `IW_MRC_Header` (1024 bytes, no padding). -/
structure IW_MRC_Header where
  nx : Int
  ny : Int
  nz : Int
  mode : Int
  nxst : Int
  nyst : Int
  nzst : Int
  mx : Int
  my : Int
  mz : Int
  xlen : Nat
  ylen : Nat
  zlen : Nat
  alpha : Nat
  beta : Nat
  gamma : Nat
  mapc : Int
  mapr : Int
  maps : Int
  amin : Nat
  amax : Nat
  amean : Nat
  ispg : Int
  inbsym : Int
  nDVID : Int
  nblank : Int
  ntst : Int
  ibyte : List Nat
  nint : Int
  nreal : Int
  nres : Int
  nzfact : Int
  min2 : Nat
  max2 : Nat
  min3 : Nat
  max3 : Nat
  min4 : Nat
  max4 : Nat
  file_type : Int
  lens : Int
  n1 : Int
  n2 : Int
  v1 : Int
  v2 : Int
  min5 : Nat
  max5 : Nat
  num_times : Int
  interleaved : Int
  tilt_x : Nat
  tilt_y : Nat
  tilt_z : Nat
  num_waves : Int
  iwav1 : Int
  iwav2 : Int
  iwav3 : Int
  iwav4 : Int
  iwav5 : Int
  zorig : Nat
  xorig : Nat
  yorig : Nat
  nlab : Int
  label : List Nat

namespace IW_MRC_Header

/-- Every scalar field holds a value of its C type. -/
def wfScalars (h : IW_MRC_Header) : Prop :=
  (isI32 h.nx ∧ isI32 h.ny ∧ isI32 h.nz ∧ isI32 h.mode) ∧
  (isI32 h.nxst ∧ isI32 h.nyst ∧ isI32 h.nzst) ∧
  (isI32 h.mx ∧ isI32 h.my ∧ isI32 h.mz) ∧
  (isF32 h.xlen ∧ isF32 h.ylen ∧ isF32 h.zlen) ∧
  (isF32 h.alpha ∧ isF32 h.beta ∧ isF32 h.gamma) ∧
  (isI32 h.mapc ∧ isI32 h.mapr ∧ isI32 h.maps) ∧
  (isF32 h.amin ∧ isF32 h.amax ∧ isF32 h.amean) ∧
  (isI32 h.ispg ∧ isI32 h.inbsym) ∧
  (isI16 h.nDVID ∧ isI16 h.nblank ∧ isI32 h.ntst) ∧
  (isI16 h.nint ∧ isI16 h.nreal ∧ isI16 h.nres ∧ isI16 h.nzfact) ∧
  (isF32 h.min2 ∧ isF32 h.max2 ∧ isF32 h.min3 ∧ isF32 h.max3 ∧ isF32 h.min4 ∧ isF32 h.max4) ∧
  (isI16 h.file_type ∧ isI16 h.lens ∧ isI16 h.n1 ∧ isI16 h.n2 ∧ isI16 h.v1 ∧ isI16 h.v2) ∧
  (isF32 h.min5 ∧ isF32 h.max5) ∧
  (isI16 h.num_times ∧ isI16 h.interleaved) ∧
  (isF32 h.tilt_x ∧ isF32 h.tilt_y ∧ isF32 h.tilt_z) ∧
  (isI16 h.num_waves ∧ isI16 h.iwav1 ∧ isI16 h.iwav2 ∧ isI16 h.iwav3 ∧ isI16 h.iwav4 ∧
    isI16 h.iwav5) ∧
  (isF32 h.zorig ∧ isF32 h.xorig ∧ isF32 h.yorig) ∧
  isI32 h.nlab

instance (h : IW_MRC_Header) : Decidable h.wfScalars := by unfold wfScalars; infer_instance

/-- Every field holds a value of its C type: the scalars are in range,
`ibyte` is 24 bytes and `label` is 800 bytes. -/
def wf (h : IW_MRC_Header) : Prop :=
  h.wfScalars ∧ isBytes 24 h.ibyte ∧ isBytes 800 h.label

instance (h : IW_MRC_Header) : Decidable h.wf := by unfold wf; infer_instance

/-- The method `sequence_order()`. -/
def sequence_order (h : IW_MRC_Header) : String :=
  if h.interleaved = 0 then "CTZ"
  else if h.interleaved = 1 then "TZC"
  else if h.interleaved = 2 then "TCZ"
  else "CTZ"

/-- The method `num_planes()`:
`nz / (num_waves ? num_waves : 1) / (num_times ? num_times : 1)`, the two
divisions from left to right. The result is `none` where one of them has no
value, and the call does not return. -/
def num_planes? (h : IW_MRC_Header) : Option Int :=
  (cDiv? h.nz (if h.num_waves ≠ 0 then h.num_waves else 1)).bind
    (fun q => cDiv? q (if h.num_times ≠ 0 then h.num_times else 1))

/-- The value that `num_planes()` returns, for use where the call returns:
`num_planes?` is `some` of it whenever it is `some` (`num_planes?_eq_some`),
which is every header but those with `nz = INT_MIN` and a divisor `-1`
(`num_planes?_eq_none_iff`). On those headers, where the source has no value,
this is the two's-complement wrap of the quotient; `_validateZWT` and
`setCurrentZWT` come to the division on such a header only with an index
below `-1` (`num_planes?_of_pos`). -/
def num_planes (h : IW_MRC_Header) : Int :=
  wrapInt32
    ((wrapInt32 (h.nz.tdiv (if h.num_waves ≠ 0 then h.num_waves else 1))).tdiv
      (if h.num_times ≠ 0 then h.num_times else 1))


/-- The valid index ranges `[0, num_planes()) x [0, num_waves) x [0, num_times)`. -/
def validZWT (h : IW_MRC_Header) (z w t : Int) : Prop :=
  (0 ≤ t ∧ t < h.num_times) ∧ (0 ≤ w ∧ w < h.num_waves) ∧ (0 ≤ z ∧ z < h.num_planes)

instance (h : IW_MRC_Header) (z w t : Int) : Decidable (h.validZWT z w t) := by
  unfold validZWT; infer_instance

/-- The offset formula of the specification, over the integers:
`1024 + inbsym + (t*num_waves*num_planes() + w*num_planes() + z) * (ny*nx*pixelSize)`. -/
def spec_offset (h : IW_MRC_Header) (psz : Nat) (z w t : Int) : Int :=
  1024 + h.inbsym +
    (t * h.num_waves * h.num_planes + w * h.num_planes + z) * (h.ny * h.nx * (psz : Int))

/-- Object representation of the header: the 1024 bytes that
`reinterpret_cast<const char*>(&header)` points to. -/
def encode (h : IW_MRC_Header) : List Nat :=
  leI32 h.nx ++ (leI32 h.ny ++ (leI32 h.nz ++ (leI32 h.mode ++
  (leI32 h.nxst ++ (leI32 h.nyst ++ (leI32 h.nzst ++
  (leI32 h.mx ++ (leI32 h.my ++ (leI32 h.mz ++
  (leU32 h.xlen ++ (leU32 h.ylen ++ (leU32 h.zlen ++
  (leU32 h.alpha ++ (leU32 h.beta ++ (leU32 h.gamma ++
  (leI32 h.mapc ++ (leI32 h.mapr ++ (leI32 h.maps ++
  (leU32 h.amin ++ (leU32 h.amax ++ (leU32 h.amean ++
  (leI32 h.ispg ++ (leI32 h.inbsym ++
  (leI16 h.nDVID ++ (leI16 h.nblank ++
  (leI32 h.ntst ++ (h.ibyte ++
  (leI16 h.nint ++ (leI16 h.nreal ++ (leI16 h.nres ++ (leI16 h.nzfact ++
  (leU32 h.min2 ++ (leU32 h.max2 ++ (leU32 h.min3 ++ (leU32 h.max3 ++
  (leU32 h.min4 ++ (leU32 h.max4 ++
  (leI16 h.file_type ++ (leI16 h.lens ++ (leI16 h.n1 ++ (leI16 h.n2 ++
  (leI16 h.v1 ++ (leI16 h.v2 ++
  (leU32 h.min5 ++ (leU32 h.max5 ++
  (leI16 h.num_times ++ (leI16 h.interleaved ++
  (leU32 h.tilt_x ++ (leU32 h.tilt_y ++ (leU32 h.tilt_z ++
  (leI16 h.num_waves ++ (leI16 h.iwav1 ++ (leI16 h.iwav2 ++ (leI16 h.iwav3 ++
  (leI16 h.iwav4 ++ (leI16 h.iwav5 ++
  (leU32 h.zorig ++ (leU32 h.xorig ++ (leU32 h.yorig ++
  (leI32 h.nlab ++ h.label))))))))))))))))))))))))))))))))))))))))))))))))))))))))))))

/-- The header whose object representation is the given 1024 bytes: what
`read(reinterpret_cast<char*>(&hdr), sizeof(IW_MRC_Header))` leaves in `hdr`.
The number after `drop` is the byte offset of the field. -/
def decode (bs : List Nat) : IW_MRC_Header where
  nx := rdI32 bs
  ny := rdI32 (bs.drop 4)
  nz := rdI32 (bs.drop 8)
  mode := rdI32 (bs.drop 12)
  nxst := rdI32 (bs.drop 16)
  nyst := rdI32 (bs.drop 20)
  nzst := rdI32 (bs.drop 24)
  mx := rdI32 (bs.drop 28)
  my := rdI32 (bs.drop 32)
  mz := rdI32 (bs.drop 36)
  xlen := rdU32 (bs.drop 40)
  ylen := rdU32 (bs.drop 44)
  zlen := rdU32 (bs.drop 48)
  alpha := rdU32 (bs.drop 52)
  beta := rdU32 (bs.drop 56)
  gamma := rdU32 (bs.drop 60)
  mapc := rdI32 (bs.drop 64)
  mapr := rdI32 (bs.drop 68)
  maps := rdI32 (bs.drop 72)
  amin := rdU32 (bs.drop 76)
  amax := rdU32 (bs.drop 80)
  amean := rdU32 (bs.drop 84)
  ispg := rdI32 (bs.drop 88)
  inbsym := rdI32 (bs.drop 92)
  nDVID := rdI16 (bs.drop 96)
  nblank := rdI16 (bs.drop 98)
  ntst := rdI32 (bs.drop 100)
  ibyte := (bs.drop 104).take 24
  nint := rdI16 (bs.drop 128)
  nreal := rdI16 (bs.drop 130)
  nres := rdI16 (bs.drop 132)
  nzfact := rdI16 (bs.drop 134)
  min2 := rdU32 (bs.drop 136)
  max2 := rdU32 (bs.drop 140)
  min3 := rdU32 (bs.drop 144)
  max3 := rdU32 (bs.drop 148)
  min4 := rdU32 (bs.drop 152)
  max4 := rdU32 (bs.drop 156)
  file_type := rdI16 (bs.drop 160)
  lens := rdI16 (bs.drop 162)
  n1 := rdI16 (bs.drop 164)
  n2 := rdI16 (bs.drop 166)
  v1 := rdI16 (bs.drop 168)
  v2 := rdI16 (bs.drop 170)
  min5 := rdU32 (bs.drop 172)
  max5 := rdU32 (bs.drop 176)
  num_times := rdI16 (bs.drop 180)
  interleaved := rdI16 (bs.drop 182)
  tilt_x := rdU32 (bs.drop 184)
  tilt_y := rdU32 (bs.drop 188)
  tilt_z := rdU32 (bs.drop 192)
  num_waves := rdI16 (bs.drop 196)
  iwav1 := rdI16 (bs.drop 198)
  iwav2 := rdI16 (bs.drop 200)
  iwav3 := rdI16 (bs.drop 202)
  iwav4 := rdI16 (bs.drop 204)
  iwav5 := rdI16 (bs.drop 206)
  zorig := rdU32 (bs.drop 208)
  xorig := rdU32 (bs.drop 212)
  yorig := rdU32 (bs.drop 216)
  nlab := rdI32 (bs.drop 220)
  label := (bs.drop 224).take 800

/-- The zero-initialised header: the `hdr` member of `new DVFile()`
(value-initialisation of a class whose default constructor is defaulted). -/
def zero : IW_MRC_Header where
  nx := 0
  ny := 0
  nz := 0
  mode := 0
  nxst := 0
  nyst := 0
  nzst := 0
  mx := 0
  my := 0
  mz := 0
  xlen := 0
  ylen := 0
  zlen := 0
  alpha := 0
  beta := 0
  gamma := 0
  mapc := 0
  mapr := 0
  maps := 0
  amin := 0
  amax := 0
  amean := 0
  ispg := 0
  inbsym := 0
  nDVID := 0
  nblank := 0
  ntst := 0
  ibyte := List.replicate 24 0
  nint := 0
  nreal := 0
  nres := 0
  nzfact := 0
  min2 := 0
  max2 := 0
  min3 := 0
  max3 := 0
  min4 := 0
  max4 := 0
  file_type := 0
  lens := 0
  n1 := 0
  n2 := 0
  v1 := 0
  v2 := 0
  min5 := 0
  max5 := 0
  num_times := 0
  interleaved := 0
  tilt_x := 0
  tilt_y := 0
  tilt_z := 0
  num_waves := 0
  iwav1 := 0
  iwav2 := 0
  iwav3 := 0
  iwav4 := 0
  iwav5 := 0
  zorig := 0
  xorig := 0
  yorig := 0
  nlab := 0
  label := List.replicate 800 0

end IW_MRC_Header


/-! ## The byte stream `std::fstream`

The standard library is not part of the repository; the stream is modelled by
its documented behaviour on one file: a joint read/write position, and a
failed state (`failbit`/`badbit`) in which every later operation does nothing.
Writes reach the file at once (no buffering is modelled). -/

/-- State of a `std::fstream`: the bytes of the file it is bound to, the file
position, whether a file is open, and whether `fail()` holds. -/
structure FStream where
  data : List Nat
  pos : Nat
  is_open : Bool
  fail : Bool
  deriving DecidableEq, Repr

/-- The bytes of a file after `bytes` are written at position `pos`; a gap
between the end of the file and `pos` reads as zeros. -/
def writeAt (data : List Nat) (pos : Nat) (bytes : List Nat) : List Nat :=
  if bytes.length = 0 then data
  else data.take pos ++ List.replicate (pos - data.length) 0 ++ bytes ++
    data.drop (pos + bytes.length)

namespace FStream

/-- Stream made by `std::fstream(path, mode)` on a file that could be opened. -/
def opened (bytes : List Nat) : FStream :=
  { data := bytes, pos := 0, is_open := true, fail := false }

/-- The calls `seekg(off)` and `seekp(off)`: no effect in the failed state;
on a closed stream or for a negative offset the seek fails and sets `failbit`. -/
def seek (s : FStream) (off : Int) : FStream :=
  if s.fail then s
  else if s.is_open ∧ 0 ≤ off then { s with pos := off.toNat }
  else { s with fail := true }

/-- The call `read(buf, n)`: the bytes stored into `buf` and the stream after.
Fewer than `n` bytes available sets `eofbit | failbit`. -/
def read (s : FStream) (n : Nat) : List Nat × FStream :=
  if s.fail then ([], s)
  else
    let got := if s.is_open then (s.data.drop s.pos).take n else []
    (got, { s with pos := s.pos + got.length, fail := decide (got.length < n) })

/-- The call `write(buf, n)` with `bytes` the `n` bytes at `buf`. -/
def write (s : FStream) (bytes : List Nat) : FStream :=
  if s.fail then s
  else if s.is_open then
    { s with data := writeAt s.data s.pos bytes, pos := s.pos + bytes.length }
  else { s with fail := decide (0 < bytes.length) }

/-- The call `close()`. -/
def close (s : FStream) : FStream :=
  if s.is_open then { s with is_open := false } else { s with fail := true }

/-- The call `open(path, std::ios::binary)`: an open mode without `in` or `out`
is not a valid mode, the open fails and sets `failbit`. -/
def open_binary (s : FStream) : FStream := { s with fail := true }

end FStream

/-- The files on disk: contents by path, and which paths can be created or
truncated for writing. -/
structure Disk where
  file : String → Option (List Nat)
  creatable : String → Bool

/-- The disk after the bytes `bytes` are stored under `path`. -/
def Disk.store (d : Disk) (path : String) (bytes : List Nat) : Disk :=
  { d with file := fun p => if p = path then some bytes else d.file p }

/-- Memory that the constructor `DVFile(path)` reads into without first
initialising it: the local `char dvid[2]` and the member `hdr`. -/
structure Indeterminate where
  dvid0 : Nat
  dvid1 : Nat
  hdr : IW_MRC_Header

/-! ## The class `DVFile` -/

/-- The data members of `DVFile`. -/
structure DVFile where
  _file : FStream
  _path : String
  _big_endian : Bool
  hdr : IW_MRC_Header
  closed : Bool

namespace DVFile

/-- The last part of the constructor, once the byte order is known: seek to
0, read `sizeof(IW_MRC_Header)` bytes over the member `hdr`, clear `closed`. -/
def ctor_readHeader (path : String) (s : FStream) (u : Indeterminate) (big_endian : Bool) :
    DVFile :=
  let q := (s.seek 0).read 1024
  { _file := q.2, _path := path, _big_endian := big_endian,
    hdr := IW_MRC_Header.decode (q.1 ++ (IW_MRC_Header.encode u.hdr).drop q.1.length),
    closed := false }

/-- The constructor `DVFile(const std::string& path)`; `u` is what the
uninitialised `dvid` and `hdr` hold before the two reads. -/
def ctor (disk : Disk) (path : String) (u : Indeterminate) : Except DVError DVFile :=
  match disk.file path with
  | none => .error .failedToOpen
  | some bytes =>
    let r := ((FStream.opened bytes).seek (24 * 4)).read 2
    let dvid0 := r.1.getD 0 u.dvid0
    let dvid1 := r.1.getD 1 u.dvid1
    if dvid0 = 0xA0 ∧ dvid1 = 0xC0 then .ok (ctor_readHeader path r.2 u false)
    else if dvid0 = 0xC0 ∧ dvid1 = 0xA0 then .ok (ctor_readHeader path r.2 u true)
    else .error (.notRecognized path)

/-- The static member `createNew`: the file is created or truncated. -/
def createNew (disk : Disk) (path : String) : Except DVError DVFile :=
  if disk.creatable path then
    .ok { _file := FStream.opened [], _path := path, _big_endian := false,
          hdr := IW_MRC_Header.zero, closed := false }
  else .error .failedToCreate

/-- The method `getPixelSize()`. -/
def getPixelSize (f : DVFile) : Except DVError Nat := pixelTypeSizes_at f.hdr.mode

/-- The local `size_t frame_size = hdr.ny * hdr.nx * getPixelSize()` of
`setCurrentZWT`, `readSec` and `writeSection`: an `int` product, converted to
`size_t` and multiplied in `size_t`. -/
def frame_size (f : DVFile) : Except DVError Int :=
  match f.getPixelSize with
  | .error e => .error e
  | .ok psz => .ok (toSizeT (toSizeT (wrapInt32 (f.hdr.ny * f.hdr.nx)) * (psz : Int)))

/-- The method `_validateZWT`. -/
def _validateZWT (f : DVFile) (z w t : Int) : Except DVError Unit :=
  if t ≥ f.hdr.num_times then .error .timeIndex
  else if w ≥ f.hdr.num_waves then .error .wavelengthIndex
  else if z ≥ f.hdr.num_planes then .error .sectionIndex
  else .ok ()

/-- The argument that `setCurrentZWT` passes to `seekg`:
`header_size + section_offset * frame_size`, computed in `size_t` from the
`int` locals `header_size` and `section_offset`, converted to a stream
offset. -/
def section_seek_offset (f : DVFile) (z w t : Int) : Except DVError Int :=
  match f.frame_size with
  | .error e => .error e
  | .ok frame_size =>
    let header_size := wrapInt32 (1024 + f.hdr.inbsym)
    let section_offset :=
      wrapInt32 (wrapInt32 (wrapInt32 (wrapInt32 (t * f.hdr.num_waves) * f.hdr.num_planes) +
        wrapInt32 (w * f.hdr.num_planes)) + z)
    .ok (toStreamOff (toSizeT (toSizeT header_size +
      toSizeT (toSizeT section_offset * frame_size))))

/-- The method `setCurrentZWT(z, w, t)`. -/
def setCurrentZWT (f : DVFile) (z w t : Int) : Except DVError Unit × DVFile :=
  match f._validateZWT z w t with
  | .error e => (.error e, f)
  | .ok () =>
    match f.section_seek_offset z w t with
    | .error e => (.error e, f)
    | .ok off => (.ok (), { f with _file := f._file.seek off })

/-- The method `readSec(void* array)`: the bytes stored into `array`. The
`size_t frame_size` is passed to `read` as a `std::streamsize`, so a frame
size of `2^63` or more is a negative count: nothing is read and the stream is
left in the failed state. -/
def readSec (f : DVFile) : Except DVError (List Nat) × DVFile :=
  if f.closed then (.error .readClosed, f)
  else
    match f.frame_size with
    | .error e => (.error e, f)
    | .ok frame_size =>
      let count := toStreamOff frame_size
      if count < 0 then (.ok [], { f with _file := { f._file with fail := true } })
      else
        let r := f._file.read count.toNat
        (.ok r.1, { f with _file := r.2 })

/-- The overload `readSec(void* array, int t, int w, int z)`; the three
integers are in the order of the source's parameter list. -/
def readSecTWZ (f : DVFile) (t w z : Int) : Except DVError (List Nat) × DVFile :=
  match f.setCurrentZWT z w t with
  | (.error e, f1) => (.error e, f1)
  | (.ok (), f1) => f1.readSec

/-- The method `writeSection(const void* array)`, with `array` the bytes the
pointer refers to (at least `frame_size` of them are expected). The
`size_t frame_size` is passed to `write` as a `std::streamsize`, so a frame
size of `2^63` or more is a negative count: nothing is written and the stream
is left in the failed state. -/
def writeSection (f : DVFile) (array : List Nat) : Except DVError Unit × DVFile :=
  if f.closed then (.error .writeClosed, f)
  else
    match f.frame_size with
    | .error e => (.error e, f)
    | .ok frame_size =>
      let count := toStreamOff frame_size
      if count < 0 then (.ok (), { f with _file := { f._file with fail := true } })
      else (.ok (), { f with _file := f._file.write (array.take count.toNat) })

/-- The method `open()` (`open` is a keyword here, hence the name). -/
def reopen (f : DVFile) : Except DVError Unit × DVFile :=
  if f.closed then
    let s := f._file.open_binary
    if ¬ s.is_open then (.error .failedToOpen, { f with _file := s })
    else (.ok (), { f with _file := s, closed := false })
  else (.ok (), f)

/-- The method `close()`. -/
def close (f : DVFile) : DVFile :=
  if ¬ f.closed then { f with _file := f._file.close, closed := true } else f

/-- The method `getPath()`. -/
def getPath (f : DVFile) : String := f._path

/-- The method `getHeader()`. -/
def getHeader (f : DVFile) : IW_MRC_Header := f.hdr

/-- The method `putHeader(header)`. -/
def putHeader (f : DVFile) (header : IW_MRC_Header) : Except DVError Unit × DVFile :=
  if f.closed then (.error .writeClosed, f)
  else
    (.ok (), { f with _file := (f._file.seek 0).write (IW_MRC_Header.encode header),
                      hdr := header })

/-- The method `isClosed()`. -/
def isClosed (f : DVFile) : Bool := f.closed

/-- Consecutive calls of `writeSection`, one per buffer, up to the first one
that throws. -/
def writeSections (f : DVFile) : List (List Nat) → Except DVError Unit × DVFile
  | [] => (.ok (), f)
  | array :: rest =>
    match f.writeSection array with
    | (.error e, f1) => (.error e, f1)
    | (.ok (), f1) => writeSections f1 rest

end DVFile

/-! ## The method `sizes()` -/

/-- A `std::map<std::string, int>`: the value mapped to each key, if any. -/
abbrev StdMap := String → Option Int

/-- The empty map. -/
def StdMap.empty : StdMap := fun _ => none

/-- The map after `m[key] = value`. -/
def StdMap.set (m : StdMap) (key : String) (value : Int) : StdMap :=
  fun k => if k = key then some value else m k

/-- The value of `m[key]` when read: the mapped value, or a value-initialised
`int` for an absent key. -/
def StdMap.get (m : StdMap) (key : String) : Int := (m key).getD 0

/-- The method `sizes()`. The local `num_real_z` is computed first, by the two
divisions of `num_planes()` written out again; where one of them has no value
the call does not return and there is no mapping (`none`). -/
def DVFile.sizes (f : DVFile) : Option StdMap :=
  match (cDiv? f.hdr.nz (if f.hdr.num_waves ≠ 0 then f.hdr.num_waves else 1)).bind
      (fun q => cDiv? q (if f.hdr.num_times ≠ 0 then f.hdr.num_times else 1)) with
  | none => none
  | some num_real_z =>
    let d := ((((StdMap.empty.set "T" f.hdr.num_times).set "C" f.hdr.num_waves).set "Z"
      num_real_z).set "Y" f.hdr.ny).set "X" f.hdr.nx
    let axes := f.hdr.sequence_order ++ "YX"
    some (axes.toList.foldl
      (fun sizes c => sizes.set (String.singleton c) (d.get (String.singleton c))) StdMap.empty)

/-! ## C strings -/

/-- The C string at a `char` pointer: the bytes before the first NUL. -/
def cstr (bs : List Nat) : List Nat := bs.takeWhile (fun b => b ≠ 0)

/-- The call `strncpy(dest, src, n)` on an array `dest` of at least `n` bytes:
the first `n` bytes of `dest` become the string at `src` cut to `n` bytes and
filled up with NUL bytes, the rest of `dest` stays. -/
def strncpy (dest src : List Nat) (n : Nat) : List Nat :=
  (cstr src).take n ++ List.replicate (n - ((cstr src).take n).length) 0 ++ dest.drop n

/-! ## IVE API -/

/-- The global `dvfile_map`, a `std::map<int, std::unique_ptr<DVFile>>`: the
file registered under each stream identifier, if any. -/
abbrev HandleTable := Int → Option DVFile

namespace HandleTable

/-- The table after `dvfile_map.erase(istream)`. -/
def erase (m : HandleTable) (istream : Int) : HandleTable :=
  fun i => if i = istream then none else m i

/-- The table after `dvfile_map[istream] = file`. -/
def set (m : HandleTable) (istream : Int) (file : DVFile) : HandleTable :=
  fun i => if i = istream then some file else m i

end HandleTable

/-- The function `getDVFile`. -/
def getDVFile (m : HandleTable) (istream : Int) : Except DVError DVFile :=
  match m istream with
  | none => .error (.streamNotFound istream)
  | some file => .ok file

/-- The function `IMOpen`: the returned `int` and the table after the call.
An entry already registered under `istream` is closed and erased first. In
`dvfile_map[istream] = ...` the right operand is evaluated first (the C++17
order), so an open that throws leaves no entry. The text written to
`std::cerr` is not modelled. -/
def IMOpen (disk : Disk) (u : Indeterminate) (m : HandleTable) (istream : Int)
    (name attrib : String) : Int × HandleTable :=
  let m1 := if (m istream).isSome then m.erase istream else m
  if attrib = "ro" then
    match DVFile.ctor disk name u with
    | .ok file => (0, m1.set istream file)
    | .error _ => (1, m1)
  else if attrib = "new" then
    match DVFile.createNew disk name with
    | .ok file => (0, m1.set istream file)
    | .error _ => (1, m1)
  else (1, m1)

/-- The function `IMClose`. -/
def IMClose (m : HandleTable) (istream : Int) : HandleTable := m.erase istream

/-- The function `IMGetHdr`: the header stored through the pointer. -/
def IMGetHdr (m : HandleTable) (istream : Int) : Except DVError IW_MRC_Header :=
  match getDVFile m istream with
  | .error e => .error e
  | .ok dvfile => .ok dvfile.getHeader

/-- The function `IMPosnZWT`: the returned `int`, or the exception that
leaves the function, and the table after the call. The call of `getDVFile`
stands before the `try` block. -/
def IMPosnZWT (m : HandleTable) (istream iz iw it : Int) : Except DVError Int × HandleTable :=
  match getDVFile m istream with
  | .error e => (.error e, m)
  | .ok dvfile =>
    match dvfile.setCurrentZWT iz iw it with
    | (.ok (), dvfile1) => (.ok 0, m.set istream dvfile1)
    | (.error _, dvfile1) => (.ok 1, m.set istream dvfile1)

/-- The function `IMRdSec`: the bytes stored into `ImgBuffer`, or the
exception, which is thrown again after the message is written. -/
def IMRdSec (m : HandleTable) (istream : Int) : Except DVError (List Nat) × HandleTable :=
  match getDVFile m istream with
  | .error e => (.error e, m)
  | .ok dvfile =>
    match dvfile.readSec with
    | (r, dvfile1) => (r, m.set istream dvfile1)

/-- The function `IMWrSec`. -/
def IMWrSec (m : HandleTable) (istream : Int) (array : List Nat) :
    Except DVError Unit × HandleTable :=
  match getDVFile m istream with
  | .error e => (.error e, m)
  | .ok dvfile =>
    match dvfile.writeSection array with
    | (r, dvfile1) => (r, m.set istream dvfile1)

/-- The function `IMPutHdr`. -/
def IMPutHdr (m : HandleTable) (istream : Int) (header : IW_MRC_Header) :
    Except DVError Unit × HandleTable :=
  match getDVFile m istream with
  | .error e => (.error e, m)
  | .ok dvfile =>
    match dvfile.putHeader header with
    | (r, dvfile1) => (r, m.set istream dvfile1)

/-- The function `IMWrHdr`; `title` is the bytes at the pointer `title`, and
the three floats are carried as their bit patterns. -/
def IMWrHdr (m : HandleTable) (istream : Int) (title : List Nat) (ntflag : Int)
    (dmin dmax dmean : Nat) : Except DVError Unit × HandleTable :=
  match getDVFile m istream with
  | .error e => (.error e, m)
  | .ok dvfile =>
    let header := { dvfile.getHeader with amin := dmin, amax := dmax, amean := dmean }
    if ntflag = 0 then
      match dvfile.putHeader { header with label := strncpy header.label title 80 } with
      | (r, dvfile1) => (r, m.set istream dvfile1)
    else if ntflag = 1 then
      let new_title := cstr title ++ [32] ++ cstr header.label
      match dvfile.putHeader { header with label := strncpy header.label new_title 80 } with
      | (r, dvfile1) => (r, m.set istream dvfile1)
    else (.error (.invalidNtflag ntflag), m)

/-! ## Concrete inputs used by the instances below -/

/-- An open `DVFile` over an empty file, holding the header `h`. -/
def exampleFile (h : IW_MRC_Header) : DVFile :=
  { _file := FStream.opened [], _path := "example.dv", _big_endian := false, hdr := h,
    closed := false }

/-- The header of the end-to-end scenario: 64 x 32 pixels of `IW_SHORT`,
`nz = 6`, two wavelengths, three time points. -/
def scenarioHeader : IW_MRC_Header :=
  { IW_MRC_Header.zero with
    nx := 64, ny := 32, nz := 6, mode := IW_SHORT, num_waves := 2, num_times := 3 }

/-- A header of 32768 x 32768 complex pixels and `2^31 - 1` planes: the last
frames lie beyond the largest stream offset. -/
def hugeHeader : IW_MRC_Header :=
  { IW_MRC_Header.zero with
    nx := 32768, ny := 32768, nz := 2147483647, mode := IW_COMPLEX, num_waves := 1,
    num_times := 1 }

/-- A header of 46340 x 46340 complex pixels (frames of 17179164800 bytes) and
`2^31 - 1` planes: the data region is longer than `2^64` bytes. -/
def wrapHeader : IW_MRC_Header :=
  { IW_MRC_Header.zero with
    nx := 46340, ny := 46340, nz := 2147483647, mode := IW_COMPLEX, num_waves := 1,
    num_times := 1 }

/-- A header with empty frames (`nx = ny = 0`) and two planes. -/
def emptyFrameHeader : IW_MRC_Header :=
  { IW_MRC_Header.zero with nz := 2, mode := IW_BYTE, num_waves := 1, num_times := 1 }

/-- A disk holding one file, `example.dv`, with the given contents. -/
def exampleDisk (bytes : List Nat) : Disk :=
  { file := fun p => if p = "example.dv" then some bytes else none, creatable := fun _ => true }

/-- Contents given to indeterminate memory in the instances. -/
def exampleIndeterminate : Indeterminate :=
  { dvid0 := 0, dvid1 := 0, hdr := IW_MRC_Header.zero }

/-- A 1024-byte file: zeros, except the two given bytes at offset 96. -/
def markedFile (b0 b1 : Nat) : List Nat :=
  List.replicate 96 0 ++ [b0, b1] ++ List.replicate 926 0

/-- The stream after the constructor has read the two bytes at offset 96. -/
def FStream.afterDvid (bytes : List Nat) : FStream :=
  { data := bytes, pos := 98, is_open := true, fail := false }

/-- The scenario header with the little-endian marker in `nDVID`
(`(int16_t)0xC0A0 = -16224`, bytes `A0 C0`). -/
def markedHeader : IW_MRC_Header := { scenarioHeader with nDVID := -16224 }

/-- The read with three indexes in the words of the specification:
`ReadSection(buffer, z, w, t)` is `SeekToSection(z, w, t)` followed by
`ReadSection(buffer)`. -/
def spec_ReadSection (f : DVFile) (z w t : Int) : Except DVError (List Nat) × DVFile :=
  match f.setCurrentZWT z w t with
  | (.error e, f1) => (.error e, f1)
  | (.ok (), f1) => f1.readSec

/-- The end-to-end scenario up to the read: `createNew(path)`, `putHeader(h)`,
then one `writeSection` per frame, in order. -/
def writeVolume (disk : Disk) (path : String) (h : IW_MRC_Header) (frames : List (List Nat)) :
    Except DVError DVFile :=
  match DVFile.createNew disk path with
  | .error e => .error e
  | .ok f0 =>
    match f0.putHeader h with
    | (.error e, _) => .error e
    | (.ok (), f1) =>
      match f1.writeSections frames with
      | (.error e, _) => .error e
      | (.ok (), f2) => .ok f2

/-- Frame `i` of the scenario: 64 x 32 `int16` samples, each of value `i`. -/
def scenarioFrame (i : Nat) : List Nat := (List.replicate 2048 (leU16 i)).flatten

/-- The six frames of the scenario. -/
def scenarioFrames : List (List Nat) := (List.range 6).map scenarioFrame

/-- A header with a 4-byte extended header and one 1 x 1 frame of bytes. -/
def extendedHeader : IW_MRC_Header :=
  { IW_MRC_Header.zero with
    nx := 1, ny := 1, nz := 1, mode := IW_BYTE, inbsym := 4, num_waves := 1, num_times := 1 }

/-- The bytes of an ASCII string. -/
def asciiBytes (s : String) : List Nat := s.toList.map Char.toNat

/-- A title in the words of the specification: cut to the fixed title width
of 80 bytes and filled up to that width with NUL bytes. -/
def spec_title80 (s : List Nat) : List Nat := s.take 80 ++ List.replicate (80 - s.length) 0

/-- A handle table with one entry: `file` under the identifier 1. -/
def exampleTable (file : DVFile) : HandleTable := HandleTable.set (fun _ => none) 1 file

/-- The scenario header with a 4096-byte extended header. -/
def extendedScenarioHeader : IW_MRC_Header := { scenarioHeader with inbsym := 4096 }

/-- A header of one 1 x 1 byte plane that declares no wavelength. -/
def noWavesHeader : IW_MRC_Header :=
  { IW_MRC_Header.zero with
    nx := 1, ny := 1, nz := 1, mode := IW_BYTE, num_waves := 0, num_times := 1 }

/-- A header of one 1 x 1 byte plane that declares no time point. -/
def noTimesHeader : IW_MRC_Header :=
  { IW_MRC_Header.zero with
    nx := 1, ny := 1, nz := 1, mode := IW_BYTE, num_waves := 1, num_times := 0 }

/-- A header with `nz = INT_MIN`, no wavelength and `num_times = -1`: the
second division of the plane count is `INT_MIN / -1`. -/
def overflowHeader : IW_MRC_Header :=
  { IW_MRC_Header.zero with nz := -2147483648, num_waves := 0, num_times := -1 }

/-- A header of two 1 x 1 byte planes. -/
def twoPlaneHeader : IW_MRC_Header :=
  { IW_MRC_Header.zero with
    nx := 1, ny := 1, nz := 2, mode := IW_BYTE, num_waves := 1, num_times := 1 }

/-- An open file that holds the header `twoPlaneHeader` and its two frames,
the bytes 7 and 9. -/
def twoPlaneFile : DVFile :=
  { exampleFile twoPlaneHeader with
    _file := FStream.opened (IW_MRC_Header.encode twoPlaneHeader ++ [7, 9]) }

/-! ## Basic facts -/

theorem wrapInt32_of_isI32 {x : Int} (h : isI32 x) : wrapInt32 x = x := by
  unfold isI32 at h
  unfold wrapInt32
  omega

/-- A `size_t` value below `2^63` is the same value as a `std::streamsize`. -/
theorem toStreamOff_of_lt (x : Int) (h0 : 0 ≤ x) (h1 : x < 9223372036854775808) :
    toStreamOff x = x := by
  unfold toStreamOff
  omega

theorem isI32_wrapInt32 (x : Int) : isI32 (wrapInt32 x) := by
  unfold isI32 wrapInt32
  omega

/-! ## Object representation of the header -/

theorem drop_leU32 (n k : Nat) (r : List Nat) : (leU32 n ++ r).drop (k + 4) = r.drop k := by
  simp [leU32]

theorem drop_leI32 (x : Int) (k : Nat) (r : List Nat) :
    (leI32 x ++ r).drop (k + 4) = r.drop k := by
  simp [leI32, leU32]

theorem drop_leU16 (n k : Nat) (r : List Nat) : (leU16 n ++ r).drop (k + 2) = r.drop k := by
  simp [leU16]

theorem drop_leI16 (x : Int) (k : Nat) (r : List Nat) :
    (leI16 x ++ r).drop (k + 2) = r.drop k := by
  simp [leI16, leU16]

theorem drop_bytes24 (l r : List Nat) (k : Nat) (hl : l.length = 24) :
    (l ++ r).drop (k + 24) = r.drop k := by
  rw [← hl, Nat.add_comm, List.drop_append]

theorem rdU32_leU32 (n : Nat) (r : List Nat) (h : isF32 n) : rdU32 (leU32 n ++ r) = n := by
  unfold isF32 at h
  simp only [leU32, rdU32, List.cons_append]
  omega

theorem rdI32_leI32 (x : Int) (r : List Nat) (h : isI32 x) : rdI32 (leI32 x ++ r) = x := by
  unfold isI32 at h
  have h0 : (x % 4294967296).toNat < 4294967296 := by omega
  unfold rdI32 leI32
  rw [rdU32_leU32 _ _ h0]
  split <;> omega

theorem rdU16_leU16 (n : Nat) (r : List Nat) (h : n < 65536) : rdU16 (leU16 n ++ r) = n := by
  simp only [leU16, rdU16, List.cons_append]
  omega

theorem rdI16_leI16 (x : Int) (r : List Nat) (h : isI16 x) : rdI16 (leI16 x ++ r) = x := by
  unfold isI16 at h
  have h0 : (x % 65536).toNat < 65536 := by omega
  unfold rdI16 leI16
  rw [rdU16_leU16 _ _ h0]
  split <;> omega

theorem take_bytes (l r : List Nat) (n : Nat) (hl : l.length = n) : (l ++ r).take n = l := by
  rw [← hl]; simp

theorem length_leU32 (n : Nat) : (leU32 n).length = 4 := rfl

theorem length_leI32 (x : Int) : (leI32 x).length = 4 := rfl

theorem length_leU16 (n : Nat) : (leU16 n).length = 2 := rfl

theorem length_leI16 (x : Int) : (leI16 x).length = 2 := rfl

/-- The object representation of a header is 1024 bytes long. -/
theorem encode_length (h : IW_MRC_Header) (hw : h.wf) :
    (IW_MRC_Header.encode h).length = 1024 := by
  obtain ⟨-, ⟨hi, -⟩, ⟨hl, -⟩⟩ := hw
  simp only [IW_MRC_Header.encode, List.length_append, length_leU32, length_leI32,
    length_leU16, length_leI16, hi, hl]

/-- Reading a header back from bytes that start with its object
representation gives the header: every field, the 24 reserved bytes and the
800 label bytes. -/
theorem decode_encode_append (h : IW_MRC_Header) (r : List Nat) (hw : h.wf) :
    IW_MRC_Header.decode (IW_MRC_Header.encode h ++ r) = h := by
  obtain ⟨⟨⟨a1, a2, a3, a4⟩, ⟨b1, b2, b3⟩, ⟨c1, c2, c3⟩, ⟨d1, d2, d3⟩, ⟨e1, e2, e3⟩,
    ⟨f1, f2, f3⟩, ⟨g1, g2, g3⟩, ⟨i1, i2⟩, ⟨j1, j2, k1⟩, ⟨l1, l2, l3, l4⟩,
    ⟨m1, m2, m3, m4, m5, m6⟩, ⟨n1, n2, n3, n4, n5, n6⟩, ⟨o1, o2⟩, ⟨p1, p2⟩, ⟨q1, q2, q3⟩,
    ⟨r1, r2, r3, r4, r5, r6⟩, ⟨s1, s2, s3⟩, t1⟩, ⟨k2, -⟩, ⟨t2, -⟩⟩ := hw
  cases h
  simp only [IW_MRC_Header.decode, IW_MRC_Header.encode, List.append_assoc] at *
  simp only [drop_leU32, drop_leI32, drop_leU16, drop_leI16, drop_bytes24 _ _ _ k2,
    List.drop_zero, rdU32_leU32, rdI32_leI32, rdU16_leU16, rdI16_leI16, take_bytes, *]

/-- Reading a header back from its object representation gives the header. -/
theorem decode_encode (h : IW_MRC_Header) (hw : h.wf) :
    IW_MRC_Header.decode (IW_MRC_Header.encode h) = h := by
  have e := decode_encode_append h [] hw
  rwa [List.append_nil] at e

/-- The bytes 96 and 97 of the object representation hold `nDVID`. -/
theorem encode_drop_96 (h : IW_MRC_Header) (r : List Nat) :
    ((IW_MRC_Header.encode h ++ r).drop 96).take 2 = leI16 h.nDVID := by
  simp only [IW_MRC_Header.encode, List.append_assoc]
  simp only [drop_leU32, drop_leI32, List.drop_zero]
  exact take_bytes _ _ 2 (length_leI16 _)

/-! ## Pixel type registry -/

/-- C4: `getPixelSize` returns 1, 2, 4, 4, 8, 2, 2, 4 for the modes 0 to 7, and
for every other integer mode (`IW_AS_IS = -1` among them) the lookup throws
instead of giving a default width. -/
theorem getPixelSize_table (f : DVFile) :
    (f.hdr.mode = IW_BYTE → f.getPixelSize = .ok 1) ∧
    (f.hdr.mode = IW_SHORT → f.getPixelSize = .ok 2) ∧
    (f.hdr.mode = IW_FLOAT → f.getPixelSize = .ok 4) ∧
    (f.hdr.mode = IW_COMPLEX_SHORT → f.getPixelSize = .ok 4) ∧
    (f.hdr.mode = IW_COMPLEX → f.getPixelSize = .ok 8) ∧
    (f.hdr.mode = IW_EMTOM → f.getPixelSize = .ok 2) ∧
    (f.hdr.mode = IW_USHORT → f.getPixelSize = .ok 2) ∧
    (f.hdr.mode = IW_LONG → f.getPixelSize = .ok 4) ∧
    (¬ (0 ≤ f.hdr.mode ∧ f.hdr.mode ≤ 7) → f.getPixelSize = .error .mapAt) ∧
    (f.hdr.mode = IW_AS_IS → f.getPixelSize = .error .mapAt) := by
  refine ⟨?_, ?_, ?_, ?_, ?_, ?_, ?_, ?_, ?_, ?_⟩
  case _ => intro h; rw [DVFile.getPixelSize, h]; rfl
  case _ => intro h; rw [DVFile.getPixelSize, h]; rfl
  case _ => intro h; rw [DVFile.getPixelSize, h]; rfl
  case _ => intro h; rw [DVFile.getPixelSize, h]; rfl
  case _ => intro h; rw [DVFile.getPixelSize, h]; rfl
  case _ => intro h; rw [DVFile.getPixelSize, h]; rfl
  case _ => intro h; rw [DVFile.getPixelSize, h]; rfl
  case _ => intro h; rw [DVFile.getPixelSize, h]; rfl
  case _ =>
    intro h
    have h0 : (f.hdr.mode == 0) = false := by rw [beq_eq_false_iff_ne]; omega
    have h1 : (f.hdr.mode == 1) = false := by rw [beq_eq_false_iff_ne]; omega
    have h2 : (f.hdr.mode == 2) = false := by rw [beq_eq_false_iff_ne]; omega
    have h3 : (f.hdr.mode == 3) = false := by rw [beq_eq_false_iff_ne]; omega
    have h4 : (f.hdr.mode == 4) = false := by rw [beq_eq_false_iff_ne]; omega
    have h5 : (f.hdr.mode == 5) = false := by rw [beq_eq_false_iff_ne]; omega
    have h6 : (f.hdr.mode == 6) = false := by rw [beq_eq_false_iff_ne]; omega
    have h7 : (f.hdr.mode == 7) = false := by rw [beq_eq_false_iff_ne]; omega
    simp only [DVFile.getPixelSize, pixelTypeSizes_at, pixelTypeSizes, List.lookup, IW_BYTE,
      IW_SHORT, IW_FLOAT, IW_COMPLEX_SHORT, IW_COMPLEX, IW_EMTOM, IW_USHORT, IW_LONG, h0, h1,
      h2, h3, h4, h5, h6, h7]
  case _ => intro h; rw [DVFile.getPixelSize, h]; rfl

/-- Instance of C4: `IW_SHORT` has width 2, and the modes -1 and 8 have none. -/
theorem getPixelSize_table_witness :
    (exampleFile scenarioHeader).getPixelSize = .ok 2 ∧
    (exampleFile { IW_MRC_Header.zero with mode := 8 }).getPixelSize = .error .mapAt ∧
    (exampleFile { IW_MRC_Header.zero with mode := IW_AS_IS }).getPixelSize = .error .mapAt :=
  ⟨(getPixelSize_table (exampleFile scenarioHeader)).2.1 rfl,
   (getPixelSize_table (exampleFile { IW_MRC_Header.zero with mode := 8 })).2.2.2.2.2.2.2.2.1
     (by decide),
   (getPixelSize_table
     (exampleFile { IW_MRC_Header.zero with mode := IW_AS_IS })).2.2.2.2.2.2.2.2.2 rfl⟩

/-! ## Plane count -/

theorem isI32_of_pos_mul {c x : Int} (hc : 0 < c) (h : isI32 (c * x)) : isI32 x := by
  unfold isI32 at *
  have h1 : 0 ≤ c - 1 := by omega
  rcases le_total 0 x with hx | hx
  · have h2 : 0 ≤ (c - 1) * x := mul_nonneg h1 hx
    have h3 : (c - 1) * x = c * x - x := by ring
    omega
  · have h2 : (c - 1) * x ≤ 0 := mul_nonpos_of_nonneg_of_nonpos h1 hx
    have h3 : (c - 1) * x = c * x - x := by ring
    omega

/-- Quotient of a nonnegative integer by a positive one. -/
theorem tdiv_nonneg_bounds (x y : Int) (hx : 0 ≤ x) (hy : 0 < y) :
    0 ≤ x.tdiv y ∧ x.tdiv y ≤ x ∧ (2 ≤ y → x.tdiv y * 2 ≤ x) := by
  rw [Int.tdiv_eq_ediv hx (le_of_lt hy)]
  have h0 := Int.ediv_nonneg hx (le_of_lt hy)
  refine ⟨h0, Int.ediv_le_self y hx, fun h2 => ?_⟩
  have h1 := Int.ediv_mul_le x (ne_of_gt hy)
  have h3 : x / y * 2 ≤ x / y * y := Int.mul_le_mul_of_nonneg_left h2 h0
  omega

/-- A quotient of an `int` by a nonzero integer, `INT_MIN / -1` apart, is an
`int`, and it is `INT_MIN` only as `INT_MIN / 1`. -/
theorem tdiv_isI32 (a b : Int) (ha : isI32 a) (hb : b ≠ 0)
    (hab : ¬ (a = -2147483648 ∧ b = -1)) :
    isI32 (a.tdiv b) ∧ (a.tdiv b = -2147483648 → a = -2147483648 ∧ b = 1) := by
  unfold isI32 at *
  rcases lt_or_le a 0 with ha0 | ha0 <;> rcases lt_or_gt_of_ne hb with hb0 | hb0
  · have e : a.tdiv b = (-a).tdiv (-b) := by rw [Int.neg_tdiv, Int.tdiv_neg, neg_neg]
    obtain ⟨c1, c2, c3⟩ := tdiv_nonneg_bounds (-a) (-b) (by omega) (by omega)
    rw [e]
    by_cases h2 : 2 ≤ -b
    · have := c3 h2
      omega
    · omega
  · have e : a.tdiv b = -((-a).tdiv b) := by rw [Int.neg_tdiv, neg_neg]
    obtain ⟨c1, c2, c3⟩ := tdiv_nonneg_bounds (-a) b (by omega) hb0
    rw [e]
    by_cases h2 : 2 ≤ b
    · have := c3 h2
      omega
    · omega
  · have e : a.tdiv b = -(a.tdiv (-b)) := by rw [Int.tdiv_neg, neg_neg]
    obtain ⟨c1, c2, c3⟩ := tdiv_nonneg_bounds a (-b) ha0 (by omega)
    rw [e]
    omega
  · obtain ⟨c1, c2, c3⟩ := tdiv_nonneg_bounds a b ha0 hb0
    omega

/-- Where `num_planes()` returns, it returns `num_planes`. -/
theorem num_planes?_eq_some (h : IW_MRC_Header) (p : Int) (hp : h.num_planes? = some p) :
    h.num_planes = p := by
  unfold IW_MRC_Header.num_planes? at hp
  unfold IW_MRC_Header.num_planes
  generalize (if h.num_waves ≠ 0 then h.num_waves else 1) = d1 at hp ⊢
  generalize (if h.num_times ≠ 0 then h.num_times else 1) = d2 at hp ⊢
  unfold cDiv? at hp
  by_cases c1 : d1 = 0 ∨ (h.nz = -2147483648 ∧ d1 = -1)
  · rw [if_pos c1] at hp
    cases hp
  · rw [if_neg c1] at hp
    simp only [Option.some_bind] at hp
    by_cases c2 : d2 = 0 ∨ (wrapInt32 (h.nz.tdiv d1) = -2147483648 ∧ d2 = -1)
    · rw [if_pos c2] at hp
      cases hp
    · rw [if_neg c2] at hp
      exact Option.some.inj hp

/-- The headers on which `num_planes()` has no value: `nz = INT_MIN` and the
first divisor is -1, or the first is 1 and the second is -1. -/
theorem num_planes?_eq_none_iff (h : IW_MRC_Header) (hnz : isI32 h.nz) :
    h.num_planes? = none ↔
      h.nz = -2147483648 ∧
        (h.num_waves = -1 ∨ ((h.num_waves = 0 ∨ h.num_waves = 1) ∧ h.num_times = -1)) := by
  have hd1 : (if h.num_waves ≠ 0 then h.num_waves else 1) ≠ 0 := by split <;> omega
  have hd2 : (if h.num_times ≠ 0 then h.num_times else 1) ≠ 0 := by split <;> omega
  have e1 : (if h.num_waves ≠ 0 then h.num_waves else 1) = -1 ↔ h.num_waves = -1 := by
    split <;> omega
  have e2 : (if h.num_waves ≠ 0 then h.num_waves else 1) = 1 ↔
      (h.num_waves = 0 ∨ h.num_waves = 1) := by
    split <;> omega
  have e3 : (if h.num_times ≠ 0 then h.num_times else 1) = -1 ↔ h.num_times = -1 := by
    split <;> omega
  rw [← e1, ← e2, ← e3]
  unfold IW_MRC_Header.num_planes?
  generalize (if h.num_waves ≠ 0 then h.num_waves else 1) = d1 at hd1 ⊢
  generalize (if h.num_times ≠ 0 then h.num_times else 1) = d2 at hd2 ⊢
  unfold cDiv?
  by_cases c1 : h.nz = -2147483648 ∧ d1 = -1
  · rw [if_pos (Or.inr c1)]
    exact ⟨fun _ => ⟨c1.1, Or.inl c1.2⟩, fun _ => rfl⟩
  · have c1' : ¬ (d1 = 0 ∨ (h.nz = -2147483648 ∧ d1 = -1)) := by
      rintro (x | x)
      · exact hd1 x
      · exact c1 x
    rw [if_neg c1']
    simp only [Option.some_bind]
    obtain ⟨q1, q2⟩ := tdiv_isI32 h.nz d1 hnz hd1 c1
    rw [wrapInt32_of_isI32 q1]
    by_cases c2 : d2 = 0 ∨ (h.nz.tdiv d1 = -2147483648 ∧ d2 = -1)
    · rw [if_pos c2]
      refine ⟨fun _ => ?_, fun _ => rfl⟩
      rcases c2 with c2 | c2
      · exact absurd c2 hd2
      · obtain ⟨x1, x2⟩ := q2 c2.1
        exact ⟨x1, Or.inr ⟨x2, c2.2⟩⟩
    · rw [if_neg c2]
      refine ⟨fun hn => (by cases hn), ?_⟩
      rintro ⟨x1, x2 | ⟨x2, x3⟩⟩
      · exact absurd ⟨x1, x2⟩ c1
      · exfalso
        apply c2
        refine Or.inr ⟨?_, x3⟩
        rw [x1, x2]
        rfl

/-- With positive `num_waves` and `num_times`, as on every path of
`_validateZWT` to its third test with non-negative `w` and `t`, `num_planes()`
returns, and it returns `num_planes`. -/
theorem num_planes?_of_pos (h : IW_MRC_Header) (hnz : isI32 h.nz) (hw : 0 < h.num_waves)
    (ht : 0 < h.num_times) : h.num_planes? = some h.num_planes := by
  have hdef : h.num_planes? ≠ none := by
    rw [Ne, num_planes?_eq_none_iff h hnz]
    omega
  obtain ⟨q, hq⟩ := Option.ne_none_iff_exists'.mp hdef
  rw [hq, num_planes?_eq_some h q hq]

/-- C5: with `num_waves = c > 0`, `num_times = t > 0` and `nz = c*t*p`,
`num_planes()` returns exactly `p`; a zero `num_waves` or `num_times` is
replaced by the divisor 1, so that neither divisor is zero for any header; and
`num_planes()` has a value for every header but those with `nz = INT_MIN` and
a quotient `INT_MIN / -1`: `num_waves = -1`, or `num_waves` 0 or 1 and
`num_times = -1`. -/
theorem num_planes_exact (h : IW_MRC_Header) :
    (∀ c t p : Int, h.wf → h.num_waves = c → 0 < c → h.num_times = t → 0 < t →
      h.nz = c * t * p → h.num_planes? = some p ∧ h.num_planes = p) ∧
    (h.num_waves = 0 → h.num_planes? =
      (cDiv? h.nz 1).bind (fun q => cDiv? q (if h.num_times ≠ 0 then h.num_times else 1))) ∧
    (h.num_times = 0 → h.num_planes? =
      (cDiv? h.nz (if h.num_waves ≠ 0 then h.num_waves else 1)).bind (fun q => cDiv? q 1)) ∧
    ((if h.num_waves ≠ 0 then h.num_waves else 1) ≠ 0 ∧
      (if h.num_times ≠ 0 then h.num_times else 1) ≠ 0) ∧
    (h.wf →
      (h.num_planes? = none ↔
        h.nz = -2147483648 ∧
          (h.num_waves = -1 ∨ ((h.num_waves = 0 ∨ h.num_waves = 1) ∧ h.num_times = -1))) ∧
      (h.num_planes? ≠ none → h.num_planes? = some h.num_planes)) := by
  refine ⟨?_, ?_, ?_, ⟨?_, ?_⟩, ?_⟩
  · intro c t p hwf hc hc0 ht ht0 hz
    have hnz : isI32 h.nz := hwf.1.1.2.2.1
    have e1 : h.nz = c * (t * p) := by rw [hz]; ring
    have htp : isI32 (t * p) := isI32_of_pos_mul hc0 (e1 ▸ hnz)
    have hp : isI32 p := isI32_of_pos_mul ht0 htp
    have key : h.num_planes = p := by
      unfold IW_MRC_Header.num_planes
      have hc' : c ≠ 0 := by omega
      have ht' : t ≠ 0 := by omega
      rw [hc, ht, if_pos hc', if_pos ht', e1, Int.mul_tdiv_cancel_left _ hc',
        wrapInt32_of_isI32 htp, Int.mul_tdiv_cancel_left _ ht', wrapInt32_of_isI32 hp]
    have hdef : h.num_planes? ≠ none := by
      rw [Ne, num_planes?_eq_none_iff h hnz]
      omega
    obtain ⟨q, hq⟩ := Option.ne_none_iff_exists'.mp hdef
    rw [hq, ← key, num_planes?_eq_some h q hq]
    exact ⟨rfl, rfl⟩
  · intro hw
    simp [IW_MRC_Header.num_planes?, hw]
  · intro ht
    simp [IW_MRC_Header.num_planes?, ht]
  · split <;> omega
  · split <;> omega
  · intro hwf
    refine ⟨num_planes?_eq_none_iff h hwf.1.1.2.2.1, fun hdef => ?_⟩
    obtain ⟨q, hq⟩ := Option.ne_none_iff_exists'.mp hdef
    rw [hq, num_planes?_eq_some h q hq]

theorem isBytes_replicate (n : Nat) : isBytes n (List.replicate n 0) :=
  ⟨List.length_replicate n 0, fun b hb => by rw [List.eq_of_mem_replicate hb]; decide⟩

theorem zero_wf : IW_MRC_Header.zero.wf :=
  ⟨by decide, isBytes_replicate 24, isBytes_replicate 800⟩

theorem scenarioHeader_wf : scenarioHeader.wf :=
  ⟨by decide, isBytes_replicate 24, isBytes_replicate 800⟩

theorem overflowHeader_wf : overflowHeader.wf :=
  ⟨by decide, isBytes_replicate 24, isBytes_replicate 800⟩

/-- Instance of C5: the scenario header (`nz = 6 = 2*3*1`) has one plane, the
zero header (no wavelength, no time point) divides by 1, and the scenario
header is not one of the headers without a value. -/
theorem num_planes_exact_witness :
    (scenarioHeader.num_planes? = some 1 ∧ scenarioHeader.num_planes = 1) ∧
    IW_MRC_Header.zero.num_planes? =
      (cDiv? 0 1).bind (fun q => cDiv? q (if (0 : Int) ≠ 0 then 0 else 1)) ∧
    (scenarioHeader.num_planes? = none ↔
      scenarioHeader.nz = -2147483648 ∧
        (scenarioHeader.num_waves = -1 ∨
          ((scenarioHeader.num_waves = 0 ∨ scenarioHeader.num_waves = 1) ∧
            scenarioHeader.num_times = -1))) :=
  ⟨(num_planes_exact scenarioHeader).1 2 3 1 scenarioHeader_wf rfl (by decide) rfl (by decide)
      (by decide),
   (num_planes_exact IW_MRC_Header.zero).2.1 rfl,
   ((num_planes_exact scenarioHeader).2.2.2.2 scenarioHeader_wf).1⟩

/-- C5 as stated fails: on the well-formed header with `nz = INT_MIN`,
`num_waves = 0` and `num_times = -1` the zero field is replaced by the divisor
1 and no divisor is zero, yet the second division is `INT_MIN / -1` and
`num_planes()` has no value. -/
theorem num_planes_exact_counterexample :
    overflowHeader.wf ∧ overflowHeader.num_waves = 0 ∧
    cDiv? overflowHeader.nz 1 = some (-2147483648) ∧
    cDiv? (-2147483648) overflowHeader.num_times = none ∧
    ¬ ∃ p, overflowHeader.num_planes? = some p :=
  ⟨overflowHeader_wf, rfl, by decide, by decide, by
    have e : overflowHeader.num_planes? = none := by decide
    rw [e]
    rintro ⟨p, hp⟩
    cases hp⟩

/-! ## Index validation -/

/-- C3: at the upper edge of each range `setCurrentZWT` throws the error of
that range (`z = num_planes()`: section index, `w = num_waves`: wavelength
index, `t = num_times`: time index, the other indexes being in range); the
three errors and their messages are pairwise distinct, and the object, its
stream included, is left as it was: no seek is performed. -/
theorem setCurrentZWT_upper_edge (f : DVFile) (z w t : Int) :
    (t = f.hdr.num_times → f.setCurrentZWT z w t = (.error .timeIndex, f)) ∧
    (t < f.hdr.num_times → w = f.hdr.num_waves →
      f.setCurrentZWT z w t = (.error .wavelengthIndex, f)) ∧
    (t < f.hdr.num_times → w < f.hdr.num_waves → z = f.hdr.num_planes →
      f.setCurrentZWT z w t = (.error .sectionIndex, f)) ∧
    (DVError.sectionIndex ≠ DVError.wavelengthIndex ∧
      DVError.wavelengthIndex ≠ DVError.timeIndex ∧
      DVError.sectionIndex ≠ DVError.timeIndex) ∧
    (DVError.sectionIndex.what ≠ DVError.wavelengthIndex.what ∧
      DVError.wavelengthIndex.what ≠ DVError.timeIndex.what ∧
      DVError.sectionIndex.what ≠ DVError.timeIndex.what) := by
  refine ⟨?_, ?_, ?_, ⟨by decide, by decide, by decide⟩, ⟨by decide, by decide, by decide⟩⟩
  · intro ht
    have h1 : t ≥ f.hdr.num_times := by omega
    simp only [DVFile.setCurrentZWT, DVFile._validateZWT, if_pos h1]
  · intro ht hw
    have h1 : ¬ t ≥ f.hdr.num_times := by omega
    have h2 : w ≥ f.hdr.num_waves := by omega
    simp only [DVFile.setCurrentZWT, DVFile._validateZWT, if_neg h1, if_pos h2]
  · intro ht hw hz
    have h1 : ¬ t ≥ f.hdr.num_times := by omega
    have h2 : ¬ w ≥ f.hdr.num_waves := by omega
    have h3 : z ≥ f.hdr.num_planes := by omega
    simp only [DVFile.setCurrentZWT, DVFile._validateZWT, if_neg h1, if_neg h2, if_pos h3]

/-- Instance of C3 on the scenario header (one plane, two wavelengths, three
time points): `z = 1`, `w = 2` and `t = 3` are each rejected with their own
error. -/
theorem setCurrentZWT_upper_edge_witness :
    (exampleFile scenarioHeader).setCurrentZWT 0 0 3 =
      (.error .timeIndex, exampleFile scenarioHeader) ∧
    (exampleFile scenarioHeader).setCurrentZWT 0 2 2 =
      (.error .wavelengthIndex, exampleFile scenarioHeader) ∧
    (exampleFile scenarioHeader).setCurrentZWT 1 1 2 =
      (.error .sectionIndex, exampleFile scenarioHeader) :=
  ⟨(setCurrentZWT_upper_edge (exampleFile scenarioHeader) 0 0 3).1 rfl,
   (setCurrentZWT_upper_edge (exampleFile scenarioHeader) 0 2 2).2.1 (by decide) rfl,
   (setCurrentZWT_upper_edge (exampleFile scenarioHeader) 1 1 2).2.2.1 (by decide) (by decide)
     (by decide)⟩

/-! ## Closed files -/

theorem frame_size_error (f : DVFile) (e : DVError) (h : f.frame_size = .error e) :
    e = .mapAt := by
  unfold DVFile.frame_size DVFile.getPixelSize pixelTypeSizes_at at h
  split at h
  · rename_i e1 h1
    split at h1
    · cases h1
    · cases h1; cases h; rfl
  · cases h

/-- C10: on a closed `DVFile`, `readSec`, `writeSection` and `putHeader` each
throw the closed-file error and leave the object (header and `closed` flag
included) as it was, so `getHeader()` still returns the header last loaded or
written; on an open `DVFile` none of the three throws a closed-file error. -/
theorem closed_rejects_io (f : DVFile) (array : List Nat) (header : IW_MRC_Header) :
    (f.closed = true →
      f.readSec = (.error .readClosed, f) ∧
      f.writeSection array = (.error .writeClosed, f) ∧
      f.putHeader header = (.error .writeClosed, f) ∧
      DVError.readClosed.isClosedError = true ∧ DVError.writeClosed.isClosedError = true ∧
      f.readSec.2.getHeader = f.hdr ∧ (f.writeSection array).2.getHeader = f.hdr ∧
      (f.putHeader header).2.getHeader = f.hdr) ∧
    (f.closed = false →
      (f.putHeader header).2.close.closed = true ∧
      (f.putHeader header).2.close.getHeader = header ∧
      ∀ e : DVError, e.isClosedError = true →
        f.readSec.1 ≠ .error e ∧ (f.writeSection array).1 ≠ .error e ∧
        (f.putHeader header).1 ≠ .error e) := by
  constructor
  · intro hc
    simp [DVFile.readSec, DVFile.writeSection, DVFile.putHeader, DVFile.getHeader, hc,
      DVError.isClosedError]
  · intro hc
    refine ⟨by simp [DVFile.putHeader, DVFile.close, hc],
      by simp [DVFile.putHeader, DVFile.close, DVFile.getHeader, hc], ?_⟩
    intro e he
    have hne : e ≠ .mapAt := by
      intro h
      rw [h] at he
      exact absurd he (by decide)
    refine ⟨?_, ?_, ?_⟩
    · simp only [DVFile.readSec, hc, Bool.false_eq_true, if_false]
      cases hfs : f.frame_size with
      | error e1 =>
        intro h
        simp only [Except.error.injEq] at h
        exact hne (h ▸ frame_size_error f e1 hfs)
      | ok n =>
        dsimp only
        split <;> simp
    · simp only [DVFile.writeSection, hc, Bool.false_eq_true, if_false]
      cases hfs : f.frame_size with
      | error e1 =>
        intro h
        simp only [Except.error.injEq] at h
        exact hne (h ▸ frame_size_error f e1 hfs)
      | ok n =>
        dsimp only
        split <;> simp
    · simp [DVFile.putHeader, hc]

/-- Instance of C10: the scenario file after `close()` rejects the three
calls, and before `close()` a read is not rejected as closed. -/
theorem closed_rejects_io_witness :
    (exampleFile scenarioHeader).close.readSec =
      (.error .readClosed, (exampleFile scenarioHeader).close) ∧
    (exampleFile scenarioHeader).readSec.1 ≠ .error .readClosed :=
  ⟨((closed_rejects_io (exampleFile scenarioHeader).close [] scenarioHeader).1 rfl).1,
   (((closed_rejects_io (exampleFile scenarioHeader) [] scenarioHeader).2 rfl).2.2
      .readClosed rfl).1⟩

/-! ## Integer arithmetic of the section offset -/

theorem toStreamOff_sum (a b c p F : Int) (hF : F = a + b * (c * p))
    (h1 : -9223372036854775808 ≤ F) (h2 : F < 9223372036854775808) :
    toStreamOff (toSizeT (toSizeT a + toSizeT (toSizeT b * toSizeT (toSizeT c * p)))) = F := by
  have hX : (toSizeT (toSizeT a + toSizeT (toSizeT b * toSizeT (toSizeT c * p)))) ≡ F
      [ZMOD 18446744073709551616] := by
    unfold toSizeT
    rw [hF]
    have ha := Int.mod_modEq a 18446744073709551616
    have hb := Int.mod_modEq b 18446744073709551616
    have hc := Int.mod_modEq c 18446744073709551616
    have hcp := (Int.mod_modEq (c % 18446744073709551616 * p) 18446744073709551616).trans
      (hc.mul_right p)
    have hbcp := (Int.mod_modEq (b % 18446744073709551616 *
      (c % 18446744073709551616 * p % 18446744073709551616)) 18446744073709551616).trans
      (hb.mul hcp)
    exact (Int.mod_modEq _ _).trans (ha.add hbcp)
  have hY := hX.add_right 9223372036854775808
  unfold Int.ModEq at hY
  unfold toStreamOff
  rw [hY, Int.emod_eq_of_lt (by omega) (by omega)]
  omega
theorem tdiv_pos_bounds (a b : Int) (hb : 0 < b) :
    (0 ≤ a → 0 ≤ a.tdiv b ∧ a.tdiv b * b ≤ a ∧ a.tdiv b ≤ a) ∧
    (a < 0 → a.tdiv b ≤ 0 ∧ a ≤ a.tdiv b) := by
  constructor
  · intro ha
    rw [Int.tdiv_eq_ediv ha (le_of_lt hb)]
    exact ⟨Int.ediv_nonneg ha (le_of_lt hb), Int.ediv_mul_le a (ne_of_gt hb),
      Int.ediv_le_self b ha⟩
  · intro ha
    have h1 : a = -(-a) := by ring
    have h2 : 0 ≤ -a := by omega
    have h3 : a.tdiv b = -((-a).tdiv b) := by rw [Int.neg_tdiv, neg_neg]
    have h4 : 0 ≤ (-a).tdiv b := Int.tdiv_nonneg h2 (le_of_lt hb)
    have h5 : (-a).tdiv b ≤ -a := by
      rw [Int.tdiv_eq_ediv h2 (le_of_lt hb)]
      exact Int.ediv_le_self b h2
    omega

/-- With positive `num_waves`, `num_times` and a positive plane count, the
planes that the header declares fit in `nz`. -/
theorem planes_le_nz (h : IW_MRC_Header) (hwf : h.wf) (hw : 0 < h.num_waves)
    (ht : 0 < h.num_times) (hp : 0 < h.num_planes) :
    h.num_times * h.num_waves * h.num_planes ≤ h.nz := by
  have hnz : isI32 h.nz := hwf.1.1.2.2.1
  unfold isI32 at hnz
  have hw' : h.num_waves ≠ 0 := by omega
  have ht' : h.num_times ≠ 0 := by omega
  unfold IW_MRC_Header.num_planes at hp ⊢
  rw [if_pos hw', if_pos ht'] at hp ⊢
  have b1 := tdiv_pos_bounds h.nz h.num_waves hw
  rcases lt_or_le h.nz 0 with hneg | hpos
  · exfalso
    obtain ⟨c1, c2⟩ := b1.2 hneg
    have e1 : wrapInt32 (h.nz.tdiv h.num_waves) = h.nz.tdiv h.num_waves :=
      wrapInt32_of_isI32 (by unfold isI32; omega)
    rw [e1] at hp
    have b2 := tdiv_pos_bounds (h.nz.tdiv h.num_waves) h.num_times ht
    rcases lt_or_le (h.nz.tdiv h.num_waves) 0 with hq | hq
    · obtain ⟨d1, d2⟩ := b2.2 hq
      rw [wrapInt32_of_isI32 (by unfold isI32; omega)] at hp
      omega
    · have hq0 : h.nz.tdiv h.num_waves = 0 := by omega
      rw [hq0] at hp
      simp [wrapInt32] at hp
  · obtain ⟨c1, c2, c3⟩ := b1.1 hpos
    have e1 : wrapInt32 (h.nz.tdiv h.num_waves) = h.nz.tdiv h.num_waves :=
      wrapInt32_of_isI32 (by unfold isI32; omega)
    rw [e1] at hp ⊢
    obtain ⟨d1, d2, d3⟩ := (tdiv_pos_bounds (h.nz.tdiv h.num_waves) h.num_times ht).1 c1
    rw [wrapInt32_of_isI32 (by unfold isI32; omega)] at hp ⊢
    calc h.num_times * h.num_waves * (h.nz.tdiv h.num_waves).tdiv h.num_times
        = ((h.nz.tdiv h.num_waves).tdiv h.num_times * h.num_times) * h.num_waves := by ring
      _ ≤ h.nz.tdiv h.num_waves * h.num_waves :=
          mul_le_mul_of_nonneg_right d2 (le_of_lt hw)
      _ ≤ h.nz := c2

theorem section_index_bounds (nw nt np z w t : Int)
    (ht0 : 0 ≤ t) (ht : t < nt) (hw0 : 0 ≤ w) (hw : w < nw) (hz0 : 0 ≤ z) (hz : z < np) :
    0 ≤ t * nw ∧ t * nw ≤ nt * nw * np ∧
    0 ≤ t * nw * np ∧ t * nw * np ≤ nt * nw * np ∧
    0 ≤ w * np ∧ w * np ≤ nt * nw * np ∧
    t * nw * np + w * np + z < nt * nw * np := by
  have hnw : 0 < nw := by omega
  have hnp : 0 < np := by omega
  have hnt : 0 < nt := by omega
  have a1 : 0 ≤ t * nw := mul_nonneg ht0 (le_of_lt hnw)
  have a2 : t * nw ≤ (nt - 1) * nw := mul_le_mul_of_nonneg_right (by omega) (le_of_lt hnw)
  have a3 : 0 ≤ t * nw * np := mul_nonneg a1 (le_of_lt hnp)
  have a4 : t * nw * np ≤ (nt - 1) * nw * np := mul_le_mul_of_nonneg_right a2 (le_of_lt hnp)
  have a5 : 0 ≤ w * np := mul_nonneg hw0 (le_of_lt hnp)
  have a6 : w * np ≤ (nw - 1) * np := mul_le_mul_of_nonneg_right (by omega) (le_of_lt hnp)
  have a7 : (nt - 1) * nw * np = nt * nw * np - nw * np := by ring
  have a8 : (nw - 1) * np = nw * np - np := by ring
  have a9 : (nt - 1) * nw = nt * nw - nw := by ring
  have a10 : 0 ≤ (nt - 1) * (nw * np) := mul_nonneg (by omega) (mul_nonneg (by omega) (by omega))
  have a11 : (nt - 1) * (nw * np) = nt * nw * np - nw * np := by ring
  have a12 : 0 ≤ (nt * nw - 1) * (np - 1) := by
    have : 0 < nt * nw := mul_pos hnt hnw
    exact mul_nonneg (by omega) (by omega)
  have a13 : (nt * nw - 1) * (np - 1) = nt * nw * np - nt * nw - np + 1 := by ring
  have a14 : 0 ≤ (nw - 1) * np := mul_nonneg (by omega) (by omega)
  refine ⟨a1, ?_, a3, ?_, a5, ?_, ?_⟩
  · omega
  · omega
  · omega
  · omega
/-! ## Section addressing: the position set by `setCurrentZWT` -/

/-- For a valid triple the `int` expression `section_offset` of `setCurrentZWT`
does not overflow. -/
theorem section_offset_no_wrap (h : IW_MRC_Header) (z w t : Int) (hwf : h.wf)
    (hv : h.validZWT z w t) :
    wrapInt32 (wrapInt32 (wrapInt32 (wrapInt32 (t * h.num_waves) * h.num_planes) +
        wrapInt32 (w * h.num_planes)) + z) =
      t * h.num_waves * h.num_planes + w * h.num_planes + z := by
  obtain ⟨⟨ht0, ht⟩, ⟨hw0, hw⟩, ⟨hz0, hz⟩⟩ := hv
  have hN := planes_le_nz h hwf (by omega) (by omega) (by omega)
  have hnz : isI32 h.nz := hwf.1.1.2.2.1
  unfold isI32 at hnz
  obtain ⟨a1, a2, a3, a4, a5, a6, a7⟩ :=
    section_index_bounds h.num_waves h.num_times h.num_planes z w t ht0 ht hw0 hw hz0 hz
  rw [wrapInt32_of_isI32 (x := t * h.num_waves) (by unfold isI32; omega),
    wrapInt32_of_isI32 (x := t * h.num_waves * h.num_planes) (by unfold isI32; omega),
    wrapInt32_of_isI32 (x := w * h.num_planes) (by unfold isI32; omega),
    wrapInt32_of_isI32 (x := t * h.num_waves * h.num_planes + w * h.num_planes)
      (by unfold isI32; omega),
    wrapInt32_of_isI32 (by unfold isI32; omega)]

/-- The offset that `setCurrentZWT` passes to `seekg` is the offset formula of
the specification whenever `ny*nx` and `1024 + inbsym` fit in an `int` and the
formula gives a value in the range of a stream offset. -/
theorem section_seek_offset_eq (f : DVFile) (z w t : Int) (psz : Nat) (hwf : f.hdr.wf)
    (hm : pixelTypeSizes_at f.hdr.mode = .ok psz) (hv : f.hdr.validZWT z w t)
    (hxy : isI32 (f.hdr.ny * f.hdr.nx)) (hhs : isI32 (1024 + f.hdr.inbsym))
    (hlo : -9223372036854775808 ≤ f.hdr.spec_offset psz z w t)
    (hhi : f.hdr.spec_offset psz z w t < 9223372036854775808) :
    f.section_seek_offset z w t = .ok (f.hdr.spec_offset psz z w t) := by
  unfold DVFile.section_seek_offset DVFile.frame_size DVFile.getPixelSize
  rw [hm]
  simp only [section_offset_no_wrap f.hdr z w t hwf hv, wrapInt32_of_isI32 hxy,
    wrapInt32_of_isI32 hhs]
  rw [toStreamOff_sum _ _ _ _ (f.hdr.spec_offset psz z w t) (by unfold IW_MRC_Header.spec_offset; ring) hlo hhi]

theorem validateZWT_ok (f : DVFile) (z w t : Int) (hv : f.hdr.validZWT z w t) :
    f._validateZWT z w t = .ok () := by
  obtain ⟨⟨ht0, ht⟩, ⟨hw0, hw⟩, ⟨hz0, hz⟩⟩ := hv
  unfold DVFile._validateZWT
  rw [if_neg (by omega), if_neg (by omega), if_neg (by omega)]

/-- The stream after `setCurrentZWT`, by cases on the validation and on the
offset computation. -/
theorem setCurrentZWT_file (f : DVFile) (z w t : Int) :
    (f.setCurrentZWT z w t).2._file =
      match f._validateZWT z w t with
      | .error _ => f._file
      | .ok () =>
        match f.section_seek_offset z w t with
        | .error _ => f._file
        | .ok off => f._file.seek off := by
  unfold DVFile.setCurrentZWT
  cases f._validateZWT z w t with
  | error e => rfl
  | ok u =>
    cases f.section_seek_offset z w t with
    | error e => rfl
    | ok off => rfl

/-- The outcome of `setCurrentZWT` for a valid triple on an open stream that
has not failed, when the offset formula is evaluated without overflow and
gives a value in `[0, 2^63)`. -/
theorem setCurrentZWT_eq (f : DVFile) (z w t : Int) (psz : Nat) (hwf : f.hdr.wf)
    (hm : pixelTypeSizes_at f.hdr.mode = .ok psz) (hv : f.hdr.validZWT z w t)
    (hxy : isI32 (f.hdr.ny * f.hdr.nx)) (hhs : isI32 (1024 + f.hdr.inbsym))
    (hlo : 0 ≤ f.hdr.spec_offset psz z w t)
    (hhi : f.hdr.spec_offset psz z w t < 9223372036854775808)
    (hopen : f._file.is_open = true) (hgood : f._file.fail = false) :
    f.setCurrentZWT z w t =
      (.ok (), { f with _file := { f._file with pos := (f.hdr.spec_offset psz z w t).toNat } }) := by
  have hoff := section_seek_offset_eq f z w t psz hwf hm hv hxy hhs (by omega) hhi
  have hval := validateZWT_ok f z w t hv
  have hseek : f._file.seek (f.hdr.spec_offset psz z w t) =
      { f._file with pos := (f.hdr.spec_offset psz z w t).toNat } := by
    simp [FStream.seek, hgood, hopen, hlo]
  simp only [DVFile.setCurrentZWT, hval, hoff, hseek]

/-- C1 (amended): for a header with a registered mode and a valid triple
`(z, w, t)`, when `ny*nx` and `1024 + inbsym` fit in an `int` and the offset
formula gives a value in `[0, 2^63)`, `setCurrentZWT(z, w, t)` on an open
stream that has not failed succeeds and positions the stream at exactly
`1024 + inbsym + (t*num_waves*num_planes() + w*num_planes() + z) * (ny*nx*pixelSize(mode))`,
changing nothing else; and the stream it leaves is the same for a header that
differs only in `interleaved`. -/
theorem setCurrentZWT_position (f : DVFile) (z w t : Int) (psz : Nat) (hwf : f.hdr.wf)
    (hm : pixelTypeSizes_at f.hdr.mode = .ok psz) (hv : f.hdr.validZWT z w t)
    (hxy : isI32 (f.hdr.ny * f.hdr.nx)) (hhs : isI32 (1024 + f.hdr.inbsym))
    (hlo : 0 ≤ f.hdr.spec_offset psz z w t)
    (hhi : f.hdr.spec_offset psz z w t < 9223372036854775808)
    (hopen : f._file.is_open = true) (hgood : f._file.fail = false) :
    (f.setCurrentZWT z w t).1 = .ok () ∧
    ((f.setCurrentZWT z w t).2._file.pos : Int) = f.hdr.spec_offset psz z w t ∧
    (f.setCurrentZWT z w t).2 =
      { f with _file := { f._file with pos := (f.hdr.spec_offset psz z w t).toNat } } ∧
    ∀ i : Int,
      ({ f with hdr := { f.hdr with interleaved := i } }.setCurrentZWT z w t).2._file =
        (f.setCurrentZWT z w t).2._file := by
  refine ⟨?_, ?_, ?_, ?_⟩
  · rw [setCurrentZWT_eq f z w t psz hwf hm hv hxy hhs hlo hhi hopen hgood]
  · rw [setCurrentZWT_eq f z w t psz hwf hm hv hxy hhs hlo hhi hopen hgood]
    exact Int.toNat_of_nonneg hlo
  · rw [setCurrentZWT_eq f z w t psz hwf hm hv hxy hhs hlo hhi hopen hgood]
  · intro i
    rw [setCurrentZWT_file, setCurrentZWT_file]
    rfl

theorem hugeHeader_wf : hugeHeader.wf :=
  ⟨by decide, isBytes_replicate 24, isBytes_replicate 800⟩

/-- C1 as stated fails: for the header of 32768 x 32768 complex pixels
(`frame_size = 2^33`), one wavelength, one time point and `2^31 - 1` planes,
the valid triple `(z, w, t) = (2^30, 0, 0)` has the offset `1024 + 2^63`,
beyond the largest stream offset; the seek fails and the stream stays at 0. -/
theorem setCurrentZWT_position_counterexample :
    hugeHeader.wf ∧ pixelTypeSizes_at hugeHeader.mode = .ok 8 ∧
    hugeHeader.validZWT 1073741824 0 0 ∧
    hugeHeader.spec_offset 8 1073741824 0 0 = 9223372036854776832 ∧
    ((exampleFile hugeHeader).setCurrentZWT 1073741824 0 0).1 = .ok () ∧
    ((exampleFile hugeHeader).setCurrentZWT 1073741824 0 0).2._file.pos = 0 ∧
    ((exampleFile hugeHeader).setCurrentZWT 1073741824 0 0).2._file.fail = true ∧
    (((exampleFile hugeHeader).setCurrentZWT 1073741824 0 0).2._file.pos : Int) ≠
      hugeHeader.spec_offset 8 1073741824 0 0 := by
  refine ⟨hugeHeader_wf, rfl, by decide, by decide, by decide, by decide, by decide, by decide⟩

/-- Instance of C1 (amended): in the scenario file, `setCurrentZWT(0, 1, 2)`
positions the stream at `1024 + 5 * 4096`. -/
theorem setCurrentZWT_position_witness :
    (((exampleFile scenarioHeader).setCurrentZWT 0 1 2).2._file.pos : Int) = 21504 :=
  (setCurrentZWT_position (exampleFile scenarioHeader) 0 1 2 2 scenarioHeader_wf rfl
    (by decide) (by decide) (by decide) (by decide) (by decide) rfl rfl).2.1

/-! ## Section addressing: injectivity and the end of the data -/

theorem radix_inj (a a' z z' n : Int) (h0 : 0 ≤ z) (h1 : z < n) (h0' : 0 ≤ z') (h1' : z' < n)
    (h : a * n + z = a' * n + z') : a = a' ∧ z = z' := by
  have hn : 0 ≤ n := by omega
  rcases lt_trichotomy a a' with hlt | heq | hgt
  · exfalso
    have h2 : (a + 1) * n ≤ a' * n := mul_le_mul_of_nonneg_right (by omega) hn
    have h3 : (a + 1) * n = a * n + n := by ring
    omega
  · subst heq
    exact ⟨rfl, by omega⟩
  · exfalso
    have h2 : (a' + 1) * n ≤ a * n := mul_le_mul_of_nonneg_right (by omega) hn
    have h3 : (a' + 1) * n = a' * n + n := by ring
    omega

/-- The linear section index is injective on the valid ranges. -/
theorem section_index_inj (h : IW_MRC_Header) (z w t z' w' t' : Int)
    (hv : h.validZWT z w t) (hv' : h.validZWT z' w' t')
    (he : t * h.num_waves * h.num_planes + w * h.num_planes + z =
      t' * h.num_waves * h.num_planes + w' * h.num_planes + z') :
    z = z' ∧ w = w' ∧ t = t' := by
  obtain ⟨⟨ht0, ht⟩, ⟨hw0, hw⟩, ⟨hz0, hz⟩⟩ := hv
  obtain ⟨⟨ht0', ht'⟩, ⟨hw0', hw'⟩, ⟨hz0', hz'⟩⟩ := hv'
  have e1 : (t * h.num_waves + w) * h.num_planes + z =
      (t' * h.num_waves + w') * h.num_planes + z' := by
    have : (t * h.num_waves + w) * h.num_planes =
        t * h.num_waves * h.num_planes + w * h.num_planes := by ring
    have : (t' * h.num_waves + w') * h.num_planes =
        t' * h.num_waves * h.num_planes + w' * h.num_planes := by ring
    omega
  obtain ⟨e2, e3⟩ := radix_inj _ _ z z' h.num_planes hz0 hz hz0' hz' e1
  obtain ⟨e4, e5⟩ := radix_inj _ _ w w' h.num_waves hw0 hw hw0' hw' e2
  exact ⟨e3, e5, e4⟩

theorem toStreamOff_lt (x : Int) : toStreamOff x < 9223372036854775808 := by
  unfold toStreamOff
  omega

/-- C2 (amended): for a header with a registered mode and a positive frame
size `ny*nx*pixelSize(mode)`, when `ny*nx` and `1024 + inbsym` fit in an `int`
and the end of the data region
`1024 + inbsym + num_waves*num_times*num_planes()*frame_size` is below `2^63`,
the offset computed by `setCurrentZWT` is injective over the valid triples, and
every valid offset is at most the offset of the last triple
`(num_planes()-1, num_waves-1, num_times-1)`, which plus one frame size is the
end of the data region. -/
theorem section_offset_injective (f : DVFile) (psz : Nat) (hwf : f.hdr.wf)
    (hm : pixelTypeSizes_at f.hdr.mode = .ok psz)
    (hfs : 0 < f.hdr.ny * f.hdr.nx * (psz : Int))
    (hxy : isI32 (f.hdr.ny * f.hdr.nx)) (hhs : isI32 (1024 + f.hdr.inbsym))
    (hend : 1024 + f.hdr.inbsym +
      f.hdr.num_waves * f.hdr.num_times * f.hdr.num_planes *
        (f.hdr.ny * f.hdr.nx * (psz : Int)) < 9223372036854775808) :
    (∀ z w t z' w' t' : Int, f.hdr.validZWT z w t → f.hdr.validZWT z' w' t' →
      f.section_seek_offset z w t = f.section_seek_offset z' w' t' →
      z = z' ∧ w = w' ∧ t = t') ∧
    (∀ z w t : Int, f.hdr.validZWT z w t →
      ∃ off top : Int, f.section_seek_offset z w t = .ok off ∧
        f.section_seek_offset (f.hdr.num_planes - 1) (f.hdr.num_waves - 1)
          (f.hdr.num_times - 1) = .ok top ∧
        off ≤ top ∧
        top + f.hdr.ny * f.hdr.nx * (psz : Int) =
          1024 + f.hdr.inbsym +
            f.hdr.num_waves * f.hdr.num_times * f.hdr.num_planes *
              (f.hdr.ny * f.hdr.nx * (psz : Int))) := by
  have hoff : ∀ z w t : Int, f.hdr.validZWT z w t →
      f.section_seek_offset z w t = .ok (f.hdr.spec_offset psz z w t) ∧
      f.hdr.spec_offset psz z w t + f.hdr.ny * f.hdr.nx * (psz : Int) ≤
        1024 + f.hdr.inbsym + f.hdr.num_waves * f.hdr.num_times * f.hdr.num_planes *
          (f.hdr.ny * f.hdr.nx * (psz : Int)) := by
    intro z w t hv
    have hv0 := hv
    obtain ⟨⟨ht0, ht⟩, ⟨hw0, hw⟩, ⟨hz0, hz⟩⟩ := hv
    obtain ⟨a1, a2, a3, a4, a5, a6, a7⟩ :=
      section_index_bounds f.hdr.num_waves f.hdr.num_times f.hdr.num_planes z w t ht0 ht hw0
        hw hz0 hz
    have b1 : (t * f.hdr.num_waves * f.hdr.num_planes + w * f.hdr.num_planes + z + 1) *
        (f.hdr.ny * f.hdr.nx * (psz : Int)) ≤
        f.hdr.num_times * f.hdr.num_waves * f.hdr.num_planes *
          (f.hdr.ny * f.hdr.nx * (psz : Int)) :=
      mul_le_mul_of_nonneg_right (by omega) (le_of_lt hfs)
    have b2 : 0 ≤ (t * f.hdr.num_waves * f.hdr.num_planes + w * f.hdr.num_planes + z) *
        (f.hdr.ny * f.hdr.nx * (psz : Int)) := mul_nonneg (by omega) (le_of_lt hfs)
    have b3 : (t * f.hdr.num_waves * f.hdr.num_planes + w * f.hdr.num_planes + z + 1) *
        (f.hdr.ny * f.hdr.nx * (psz : Int)) =
        (t * f.hdr.num_waves * f.hdr.num_planes + w * f.hdr.num_planes + z) *
          (f.hdr.ny * f.hdr.nx * (psz : Int)) + f.hdr.ny * f.hdr.nx * (psz : Int) := by ring
    have b4 : f.hdr.num_times * f.hdr.num_waves * f.hdr.num_planes *
          (f.hdr.ny * f.hdr.nx * (psz : Int)) =
        f.hdr.num_waves * f.hdr.num_times * f.hdr.num_planes *
          (f.hdr.ny * f.hdr.nx * (psz : Int)) := by ring
    have b5 : f.hdr.spec_offset psz z w t = 1024 + f.hdr.inbsym +
        (t * f.hdr.num_waves * f.hdr.num_planes + w * f.hdr.num_planes + z) *
          (f.hdr.ny * f.hdr.nx * (psz : Int)) := rfl
    unfold isI32 at hhs
    refine ⟨section_seek_offset_eq f z w t psz hwf hm hv0 hxy hhs (by omega) (by omega), ?_⟩
    omega
  constructor
  · intro z w t z' w' t' hv hv' he
    rw [(hoff z w t hv).1, (hoff z' w' t' hv').1] at he
    have he' : f.hdr.spec_offset psz z w t = f.hdr.spec_offset psz z' w' t' := by
      injection he
    unfold IW_MRC_Header.spec_offset at he'
    have e1 : (t * f.hdr.num_waves * f.hdr.num_planes + w * f.hdr.num_planes + z) *
        (f.hdr.ny * f.hdr.nx * (psz : Int)) =
        (t' * f.hdr.num_waves * f.hdr.num_planes + w' * f.hdr.num_planes + z') *
        (f.hdr.ny * f.hdr.nx * (psz : Int)) := by omega
    exact section_index_inj f.hdr z w t z' w' t' hv hv'
      (mul_right_cancel₀ (ne_of_gt hfs) e1)
  · intro z w t hv
    have hv0 := hv
    obtain ⟨⟨ht0, ht⟩, ⟨hw0, hw⟩, ⟨hz0, hz⟩⟩ := hv
    have hvtop : f.hdr.validZWT (f.hdr.num_planes - 1) (f.hdr.num_waves - 1)
        (f.hdr.num_times - 1) := by
      unfold IW_MRC_Header.validZWT
      omega
    have etop : f.hdr.spec_offset psz (f.hdr.num_planes - 1) (f.hdr.num_waves - 1)
        (f.hdr.num_times - 1) + f.hdr.ny * f.hdr.nx * (psz : Int) =
        1024 + f.hdr.inbsym + f.hdr.num_waves * f.hdr.num_times * f.hdr.num_planes *
          (f.hdr.ny * f.hdr.nx * (psz : Int)) := by
      unfold IW_MRC_Header.spec_offset
      ring
    refine ⟨_, _, (hoff z w t hv0).1, (hoff _ _ _ hvtop).1, ?_, etop⟩
    have := (hoff z w t hv0).2
    omega

theorem emptyFrameHeader_wf : emptyFrameHeader.wf :=
  ⟨by decide, isBytes_replicate 24, isBytes_replicate 800⟩

theorem wrapHeader_wf : wrapHeader.wf :=
  ⟨by decide, isBytes_replicate 24, isBytes_replicate 800⟩

/-- C2 as stated fails. With empty frames (`nx = ny = 0`) the two valid triples
`(0,0,0)` and `(1,0,0)` have the same offset 1024. With 46340 x 46340 complex
pixels and `2^31 - 1` planes, `ny*nx` fits in an `int` and the last triple
`(2^31 - 2, 0, 0)` is valid, but no offset that the code computes, plus one
frame size, is the end of the data region
`1024 + inbsym + num_waves*num_times*num_planes()*frame_size`, which exceeds
`2^64`. -/
theorem section_offset_injective_counterexample :
    (emptyFrameHeader.wf ∧ emptyFrameHeader.validZWT 0 0 0 ∧ emptyFrameHeader.validZWT 1 0 0 ∧
      (exampleFile emptyFrameHeader).section_seek_offset 0 0 0 = .ok 1024 ∧
      (exampleFile emptyFrameHeader).section_seek_offset 1 0 0 = .ok 1024) ∧
    (wrapHeader.wf ∧ isI32 (wrapHeader.ny * wrapHeader.nx) ∧
      wrapHeader.validZWT 2147483646 0 0 ∧
      1024 + wrapHeader.inbsym +
        wrapHeader.num_waves * wrapHeader.num_times * wrapHeader.num_planes *
          (wrapHeader.ny * wrapHeader.nx * 8) = 36891975477118026624 ∧
      ∀ z w t off : Int, (exampleFile wrapHeader).section_seek_offset z w t = .ok off →
        off + wrapHeader.ny * wrapHeader.nx * 8 ≠
          1024 + wrapHeader.inbsym +
            wrapHeader.num_waves * wrapHeader.num_times * wrapHeader.num_planes *
              (wrapHeader.ny * wrapHeader.nx * 8)) := by
  have e2 : 1024 + wrapHeader.inbsym +
      wrapHeader.num_waves * wrapHeader.num_times * wrapHeader.num_planes *
        (wrapHeader.ny * wrapHeader.nx * 8) = 36891975477118026624 := by decide
  refine ⟨⟨emptyFrameHeader_wf, by decide, by decide, by decide, by decide⟩,
    wrapHeader_wf, by decide, by decide, e2, ?_⟩
  intro z w t off h
  have hlt : off < 9223372036854775808 := by
    unfold DVFile.section_seek_offset at h
    cases hfs : (exampleFile wrapHeader).frame_size with
    | error e => rw [hfs] at h; cases h
    | ok n =>
      rw [hfs] at h
      simp only [Except.ok.injEq] at h
      rw [← h]
      exact toStreamOff_lt _
  have e1 : wrapHeader.ny * wrapHeader.nx * 8 = 17179164800 := by decide
  rw [e2, e1]
  omega

/-- Instance of C2 (amended) on the scenario header: the triples `(0,1,2)` and
`(0,0,2)` are told apart, and the last frame ends at `1024 + 6 * 4096`. -/
theorem section_offset_injective_witness :
    ((exampleFile scenarioHeader).section_seek_offset 0 1 2 =
        (exampleFile scenarioHeader).section_seek_offset 0 0 2 →
      (0 : Int) = 0 ∧ (1 : Int) = 0 ∧ (2 : Int) = 2) ∧
    ∃ off top : Int, (exampleFile scenarioHeader).section_seek_offset 0 0 0 = .ok off ∧
      (exampleFile scenarioHeader).section_seek_offset (1 - 1) (2 - 1) (3 - 1) = .ok top ∧
      off ≤ top ∧ top + 32 * 64 * 2 = 1024 + 0 + 2 * 3 * 1 * (32 * 64 * 2) :=
  ⟨(section_offset_injective (exampleFile scenarioHeader) 2 scenarioHeader_wf rfl (by decide)
      (by decide) (by decide) (by decide)).1 0 1 2 0 0 2 (by decide) (by decide),
   (section_offset_injective (exampleFile scenarioHeader) 2 scenarioHeader_wf rfl (by decide)
      (by decide) (by decide) (by decide)).2 0 0 0 (by decide)⟩

/-! ## Byte-order detection -/

theorem getD_take_drop (bytes : List Nat) (off n i d : Nat) (hi : i < n)
    (hlen : off + n ≤ bytes.length) :
    ((bytes.drop off).take n).getD i d = bytes.getD (off + i) 0 := by
  have h1 : off + i < bytes.length := by omega
  rw [List.getD_eq_getElem?_getD, List.getD_eq_getElem?_getD, List.getElem?_take_of_lt hi,
    List.getElem?_drop, List.getElem?_eq_getElem h1]
  rfl

/-- The two bytes that the constructor compares are the bytes 96 and 97 of
the file, when the file has them. -/
theorem ctor_eq (disk : Disk) (path : String) (u : Indeterminate) (bytes : List Nat)
    (hfile : disk.file path = some bytes) (hlen : 98 ≤ bytes.length) :
    DVFile.ctor disk path u =
      if bytes.getD 96 0 = 0xA0 ∧ bytes.getD 97 0 = 0xC0 then
        .ok (DVFile.ctor_readHeader path (FStream.afterDvid bytes) u false)
      else if bytes.getD 96 0 = 0xC0 ∧ bytes.getD 97 0 = 0xA0 then
        .ok (DVFile.ctor_readHeader path (FStream.afterDvid bytes) u true)
      else .error (.notRecognized path) := by
  have hl : ((bytes.drop 96).take 2).length = 2 := by
    rw [List.length_take, List.length_drop]; omega
  have hr : ((FStream.opened bytes).seek (24 * 4)).read 2 =
      ((bytes.drop 96).take 2, FStream.afterDvid bytes) := by
    simp [FStream.opened, FStream.seek, FStream.read, FStream.afterDvid, hl]
  have e0 := getD_take_drop bytes 96 2 0 u.dvid0 (by omega) (by omega)
  have e1 := getD_take_drop bytes 96 2 1 u.dvid1 (by omega) (by omega)
  simp only [Nat.add_zero] at e0
  unfold DVFile.ctor
  simp only [hfile, hr, e0, e1]

/-- C6: for a file that has the bytes `b0`, `b1` at the offsets 96 and 97, the
constructor `DVFile(path)` classifies it as little-endian exactly when
`(b0, b1) = (0xA0, 0xC0)`, as big-endian exactly when `(b0, b1) = (0xC0, 0xA0)`,
and throws the not-recognized error for every other pair. -/
theorem ctor_byte_order (disk : Disk) (path : String) (u : Indeterminate) (bytes : List Nat)
    (hfile : disk.file path = some bytes) (hlen : 98 ≤ bytes.length) :
    ((∃ f, DVFile.ctor disk path u = .ok f ∧ f._big_endian = false) ↔
      (bytes.getD 96 0 = 0xA0 ∧ bytes.getD 97 0 = 0xC0)) ∧
    ((∃ f, DVFile.ctor disk path u = .ok f ∧ f._big_endian = true) ↔
      (bytes.getD 96 0 = 0xC0 ∧ bytes.getD 97 0 = 0xA0)) ∧
    (DVFile.ctor disk path u = .error (.notRecognized path) ↔
      ¬ (bytes.getD 96 0 = 0xA0 ∧ bytes.getD 97 0 = 0xC0) ∧
      ¬ (bytes.getD 96 0 = 0xC0 ∧ bytes.getD 97 0 = 0xA0)) := by
  rw [ctor_eq disk path u bytes hfile hlen]
  by_cases hle : bytes.getD 96 0 = 0xA0 ∧ bytes.getD 97 0 = 0xC0
  · have hbe : ¬ (bytes.getD 96 0 = 0xC0 ∧ bytes.getD 97 0 = 0xA0) := by
      intro h; omega
    rw [if_pos hle]
    refine ⟨⟨fun _ => hle, fun _ => ⟨_, rfl, rfl⟩⟩, ⟨?_, fun h => absurd h hbe⟩,
      ⟨fun h => (by cases h), fun h => absurd hle h.1⟩⟩
    rintro ⟨f, hf, hb⟩
    injection hf with hf
    rw [← hf] at hb
    cases hb
  · rw [if_neg hle]
    by_cases hbe : bytes.getD 96 0 = 0xC0 ∧ bytes.getD 97 0 = 0xA0
    · rw [if_pos hbe]
      refine ⟨⟨?_, fun h => absurd h hle⟩, ⟨fun _ => hbe, fun _ => ⟨_, rfl, rfl⟩⟩,
        ⟨fun h => (by cases h), fun h => absurd hbe h.2⟩⟩
      rintro ⟨f, hf, hb⟩
      injection hf with hf
      rw [← hf] at hb
      cases hb
    · rw [if_neg hbe]
      refine ⟨⟨?_, fun h => absurd h hle⟩, ⟨?_, fun h => absurd h hbe⟩,
        ⟨fun _ => ⟨hle, hbe⟩, fun _ => rfl⟩⟩
      · rintro ⟨f, hf, -⟩
        cases hf
      · rintro ⟨f, hf, -⟩
        cases hf

set_option maxRecDepth 8000 in
/-- Instance of C6: a file with `A0 C0` at offset 96 is little-endian, one
with `C0 A0` is big-endian, one with `00 00` is not recognized. -/
theorem ctor_byte_order_witness :
    (∃ f, DVFile.ctor (exampleDisk (markedFile 0xA0 0xC0)) "example.dv" exampleIndeterminate =
      .ok f ∧ f._big_endian = false) ∧
    (∃ f, DVFile.ctor (exampleDisk (markedFile 0xC0 0xA0)) "example.dv" exampleIndeterminate =
      .ok f ∧ f._big_endian = true) ∧
    DVFile.ctor (exampleDisk (markedFile 0 0)) "example.dv" exampleIndeterminate =
      .error (.notRecognized "example.dv") :=
  ⟨(ctor_byte_order (exampleDisk (markedFile 0xA0 0xC0)) "example.dv" exampleIndeterminate
      (markedFile 0xA0 0xC0) rfl (by decide)).1.2 (by decide),
   (ctor_byte_order (exampleDisk (markedFile 0xC0 0xA0)) "example.dv" exampleIndeterminate
      (markedFile 0xC0 0xA0) rfl (by decide)).2.1.2 (by decide),
   (ctor_byte_order (exampleDisk (markedFile 0 0)) "example.dv" exampleIndeterminate
      (markedFile 0 0) rfl (by decide)).2.2.2 (by decide)⟩

/-! ## Header round trip -/

theorem writeAt_zero (data bytes : List Nat) (hb : 0 < bytes.length) :
    writeAt data 0 bytes = bytes ++ data.drop bytes.length := by
  unfold writeAt
  rw [if_neg (by omega)]
  simp

/-- The stream after `putHeader` on an open stream that has not failed: the
first 1024 bytes of the file are the object representation of the header. -/
theorem putHeader_file (f : DVFile) (h : IW_MRC_Header) (hwf : h.wf) (hc : f.closed = false)
    (hopen : f._file.is_open = true) (hgood : f._file.fail = false) :
    f.putHeader h =
      (.ok (), { f with
        _file := { data := IW_MRC_Header.encode h ++ f._file.data.drop 1024, pos := 1024,
                   is_open := true, fail := false },
        hdr := h }) := by
  have hl := encode_length h hwf
  simp [DVFile.putHeader, hc, FStream.seek, FStream.write, hopen, hgood,
    writeAt_zero _ _ (by omega : 0 < (IW_MRC_Header.encode h).length), hl]

/-- Opening a file whose first 1024 bytes are the object representation of
`h`: the constructor accepts it exactly when `nDVID` holds one of the two
markers, and then loads `h`. -/
theorem ctor_encoded (disk : Disk) (path : String) (u : Indeterminate) (h : IW_MRC_Header)
    (r : List Nat) (hwf : h.wf) (hfile : disk.file path = some (IW_MRC_Header.encode h ++ r)) :
    ((h.nDVID = -16224 ∨ h.nDVID = -24384) →
      ∃ g, DVFile.ctor disk path u = .ok g ∧ g.getHeader = h) ∧
    (¬ (h.nDVID = -16224 ∨ h.nDVID = -24384) →
      DVFile.ctor disk path u = .error (.notRecognized path)) := by
  have hl := encode_length h hwf
  have hlen : 98 ≤ (IW_MRC_Header.encode h ++ r).length := by
    rw [List.length_append]; omega
  have hd := encode_drop_96 h r
  have e0 := getD_take_drop (IW_MRC_Header.encode h ++ r) 96 2 0 0 (by omega) (by omega)
  have e1 := getD_take_drop (IW_MRC_Header.encode h ++ r) 96 2 1 0 (by omega) (by omega)
  rw [hd] at e0 e1
  simp only [Nat.add_zero] at e0
  have hI : isI16 h.nDVID := hwf.1.2.2.2.2.2.2.2.2.1.1
  unfold isI16 at hI
  have b0 : (IW_MRC_Header.encode h ++ r).getD 96 0 = (h.nDVID % 65536).toNat % 256 := by
    rw [← e0]; rfl
  have b1 : (IW_MRC_Header.encode h ++ r).getD 97 0 = (h.nDVID % 65536).toNat / 256 % 256 := by
    rw [← e1]; rfl
  have hhdr : ∀ big : Bool, (DVFile.ctor_readHeader path
      (FStream.afterDvid (IW_MRC_Header.encode h ++ r)) u big).getHeader = h := by
    intro big
    have ht : List.take 1024 (IW_MRC_Header.encode h ++ r) = IW_MRC_Header.encode h :=
      take_bytes _ _ 1024 hl
    simp only [DVFile.ctor_readHeader, DVFile.getHeader, FStream.afterDvid, FStream.seek,
      FStream.read]
    simp only [Bool.false_eq_true, if_false, le_refl, and_self, if_true, Int.toNat_zero,
      List.drop_zero, ht]
    exact decode_encode_append h _ hwf
  rw [ctor_eq disk path u _ hfile hlen, b0, b1]
  constructor
  · rintro (hm | hm)
    · rw [if_pos (by rw [hm]; decide)]
      exact ⟨_, rfl, hhdr false⟩
    · rw [if_neg (by rw [hm]; decide), if_pos (by rw [hm]; decide)]
      exact ⟨_, rfl, hhdr true⟩
  · intro hm
    rw [if_neg (by omega), if_neg (by omega)]

/-- C9 (amended): `putHeader(h)` on an open file whose stream has not failed
succeeds and `getHeader()` on the same object returns `h` in every field;
opening the written file again with `DVFile(path)` loads a header equal to
`h` in every field, the 800 label bytes included, when `h.nDVID` holds one of
the two byte-order markers (bytes `A0 C0` or `C0 A0`), and throws the
not-recognized error for any other `nDVID`. -/
theorem putHeader_roundtrip (f : DVFile) (h : IW_MRC_Header) (disk : Disk) (u : Indeterminate)
    (hwf : h.wf) (hc : f.closed = false) (hopen : f._file.is_open = true)
    (hgood : f._file.fail = false) :
    (f.putHeader h).1 = .ok () ∧ (f.putHeader h).2.getHeader = h ∧
    ((h.nDVID = -16224 ∨ h.nDVID = -24384) →
      ∃ g, DVFile.ctor (disk.store f._path (f.putHeader h).2._file.data) f._path u = .ok g ∧
        g.getHeader = h) ∧
    (¬ (h.nDVID = -16224 ∨ h.nDVID = -24384) →
      DVFile.ctor (disk.store f._path (f.putHeader h).2._file.data) f._path u =
        .error (.notRecognized f._path)) := by
  rw [putHeader_file f h hwf hc hopen hgood]
  refine ⟨rfl, rfl, ?_⟩
  exact ctor_encoded _ f._path u h (f._file.data.drop 1024) hwf (by simp [Disk.store])

/-- C9 as stated fails: after the scenario header (whose `nDVID` is 0) is
written to a new file with `putHeader`, opening the file again throws the
not-recognized error, so no header is read back. -/
theorem putHeader_roundtrip_counterexample :
    scenarioHeader.wf ∧
    ((exampleFile scenarioHeader).putHeader scenarioHeader).1 = .ok () ∧
    DVFile.ctor
      (Disk.store (exampleDisk []) "example.dv"
        ((exampleFile scenarioHeader).putHeader scenarioHeader).2._file.data)
      "example.dv" exampleIndeterminate = .error (.notRecognized "example.dv") := by
  refine ⟨scenarioHeader_wf, rfl, ?_⟩
  rw [putHeader_file _ _ scenarioHeader_wf rfl rfl rfl]
  exact (ctor_encoded _ "example.dv" _ scenarioHeader
    ((exampleFile scenarioHeader)._file.data.drop 1024) scenarioHeader_wf
    (by simp [Disk.store])).2 (by decide)

theorem markedHeader_wf : markedHeader.wf :=
  ⟨by decide, isBytes_replicate 24, isBytes_replicate 800⟩

/-- Instance of C9 (amended): the scenario header with the little-endian
marker, written to a new file, is returned by `getHeader()` and is loaded
again when the file is opened with `DVFile(path)`. -/
theorem putHeader_roundtrip_witness :
    ((exampleFile IW_MRC_Header.zero).putHeader markedHeader).2.getHeader = markedHeader ∧
    ∃ g, DVFile.ctor
        (Disk.store (exampleDisk []) "example.dv"
          ((exampleFile IW_MRC_Header.zero).putHeader markedHeader).2._file.data)
        "example.dv" exampleIndeterminate = .ok g ∧
      g.getHeader = markedHeader :=
  ⟨(putHeader_roundtrip (exampleFile IW_MRC_Header.zero) markedHeader (exampleDisk [])
      exampleIndeterminate markedHeader_wf rfl rfl rfl).2.1,
   (putHeader_roundtrip (exampleFile IW_MRC_Header.zero) markedHeader (exampleDisk [])
      exampleIndeterminate markedHeader_wf rfl rfl rfl).2.2.1 (Or.inl rfl)⟩

/-! ## Writing frames and reading them back -/

theorem writeAt_end (data bytes : List Nat) :
    writeAt data data.length bytes = data ++ bytes := by
  unfold writeAt
  split
  · rename_i h
    rw [List.length_eq_zero.mp h, List.append_nil]
  · simp

/-- Frames of equal length written one after another at the end of the file
are appended to it. -/
theorem writeSections_append (frames : List (List Nat)) :
    ∀ (f : DVFile) (fs : Int), f.closed = false → f._file.is_open = true →
      f._file.fail = false → f._file.pos = f._file.data.length → f.frame_size = .ok fs →
      0 ≤ fs → fs < 9223372036854775808 → (∀ a ∈ frames, a.length = fs.toNat) →
      f.writeSections frames =
        (.ok (), { f with _file :=
          { f._file with data := f._file.data ++ frames.flatten,
                         pos := f._file.data.length + frames.flatten.length } }) := by
  induction frames with
  | nil =>
    intro f fs hc ho hg hp hfs h0 h1 hl
    simp [DVFile.writeSections, ← hp]
  | cons a rest ih =>
    intro f fs hc ho hg hp hfs h0 h1 hl
    have ha : a.length = fs.toNat := hl a (List.mem_cons_self a rest)
    have hcount : ¬ fs < 0 := by omega
    have hw : f.writeSection a =
        (.ok (), { f with _file :=
          { f._file with data := f._file.data ++ a, pos := f._file.data.length + a.length } }) := by
      simp only [DVFile.writeSection, hc, Bool.false_eq_true, if_false, hfs,
        toStreamOff_of_lt fs h0 h1, if_neg hcount]
      simp [FStream.write, hg, ho, hp, writeAt_end, ← ha]
    rw [DVFile.writeSections, hw]
    have ih' := ih
      { f with _file :=
        { f._file with data := f._file.data ++ a, pos := f._file.data.length + a.length } }
      fs hc ho hg (by simp) hfs h0 h1 (fun b hb => hl b (List.mem_cons_of_mem a hb))
    refine ih'.trans ?_
    simp [List.flatten, Nat.add_assoc]

/-- The `i`-th block of a concatenation of blocks of length `n`. -/
theorem flatten_slice (n : Nat) (frames : List (List Nat)) :
    ∀ i : Nat, (∀ a ∈ frames, a.length = n) → i < frames.length →
      (frames.flatten.drop (i * n)).take n = frames.getD i [] := by
  induction frames with
  | nil => intro i _ hi; simp at hi
  | cons a rest ih =>
    intro i hl hi
    have ha : a.length = n := hl a (List.mem_cons_self a rest)
    cases i with
    | zero =>
      simp only [List.flatten, Nat.zero_mul, List.drop_zero, List.getD_cons_zero]
      exact take_bytes _ _ n ha
    | succ j =>
      have e : (j + 1) * n = a.length + j * n := by rw [ha]; ring
      simp only [List.flatten, List.getD_cons_succ]
      rw [e, List.drop_append]
      exact ih j (fun b hb => hl b (List.mem_cons_of_mem a hb))
        (by simpa using hi)

theorem frame_size_eq (f : DVFile) (psz : Nat) (hm : pixelTypeSizes_at f.hdr.mode = .ok psz)
    (h0 : 0 ≤ f.hdr.ny * f.hdr.nx) (h1 : f.hdr.ny * f.hdr.nx < 2147483648)
    (hp : psz ≤ 8) :
    f.frame_size = .ok (f.hdr.ny * f.hdr.nx * (psz : Int)) := by
  have hI : isI32 (f.hdr.ny * f.hdr.nx) := by unfold isI32; omega
  have h2 : 0 ≤ f.hdr.ny * f.hdr.nx * (psz : Int) := mul_nonneg h0 (by omega)
  have h3 : f.hdr.ny * f.hdr.nx * (psz : Int) ≤ 2147483648 * 8 :=
    mul_le_mul (by omega) (by omega) (by omega) (by omega)
  unfold DVFile.frame_size DVFile.getPixelSize
  rw [hm]
  simp only [wrapInt32_of_isI32 hI, toSizeT]
  rw [Int.emod_eq_of_lt h0 (by omega), Int.emod_eq_of_lt h2 (by omega)]

theorem pixelTypeSizes_at_other (m : Int) (h : ¬ (0 ≤ m ∧ m ≤ 7)) :
    pixelTypeSizes_at m = .error .mapAt := by
  have h0 : (m == 0) = false := by rw [beq_eq_false_iff_ne]; omega
  have h1 : (m == 1) = false := by rw [beq_eq_false_iff_ne]; omega
  have h2 : (m == 2) = false := by rw [beq_eq_false_iff_ne]; omega
  have h3 : (m == 3) = false := by rw [beq_eq_false_iff_ne]; omega
  have h4 : (m == 4) = false := by rw [beq_eq_false_iff_ne]; omega
  have h5 : (m == 5) = false := by rw [beq_eq_false_iff_ne]; omega
  have h6 : (m == 6) = false := by rw [beq_eq_false_iff_ne]; omega
  have h7 : (m == 7) = false := by rw [beq_eq_false_iff_ne]; omega
  simp only [pixelTypeSizes_at, pixelTypeSizes, List.lookup, IW_BYTE, IW_SHORT, IW_FLOAT,
    IW_COMPLEX_SHORT, IW_COMPLEX, IW_EMTOM, IW_USHORT, IW_LONG, h0, h1, h2, h3, h4, h5, h6, h7]

theorem pixelTypeSizes_at_le (m : Int) (psz : Nat) (h : pixelTypeSizes_at m = .ok psz) :
    psz ≤ 8 := by
  by_cases hr : 0 ≤ m ∧ m ≤ 7
  · have hm : m = 0 ∨ m = 1 ∨ m = 2 ∨ m = 3 ∨ m = 4 ∨ m = 5 ∨ m = 6 ∨ m = 7 := by omega
    rcases hm with rfl | rfl | rfl | rfl | rfl | rfl | rfl | rfl
    all_goals
      have h' : Except.ok _ = Except.ok psz := h
      injection h' with h'
      subst h'
      decide
  · rw [pixelTypeSizes_at_other m hr] at h
    cases h

/-- The object at the end of the write part of the scenario. -/
theorem writeVolume_eq (disk : Disk) (path : String) (h : IW_MRC_Header)
    (frames : List (List Nat)) (psz : Nat) (hcr : disk.creatable path = true) (hwf : h.wf)
    (hm : pixelTypeSizes_at h.mode = .ok psz) (h0 : 0 ≤ h.ny * h.nx)
    (h1 : h.ny * h.nx < 2147483648)
    (hlen : ∀ a ∈ frames, (a.length : Int) = h.ny * h.nx * (psz : Int)) :
    writeVolume disk path h frames =
      .ok { _file := { data := IW_MRC_Header.encode h ++ frames.flatten,
                       pos := 1024 + frames.flatten.length, is_open := true, fail := false },
            _path := path, _big_endian := false, hdr := h, closed := false } := by
  have hl := encode_length h hwf
  have hput : DVFile.putHeader
      { _file := FStream.opened [], _path := path, _big_endian := false,
        hdr := IW_MRC_Header.zero, closed := false } h =
      (.ok (), { _file := { data := IW_MRC_Header.encode h, pos := 1024, is_open := true,
                            fail := false },
                 _path := path, _big_endian := false, hdr := h, closed := false }) := by
    rw [putHeader_file _ h hwf rfl rfl rfl]
    simp [FStream.opened]
  have hfs := frame_size_eq
    { _file := { data := IW_MRC_Header.encode h, pos := 1024, is_open := true, fail := false },
      _path := path, _big_endian := false, hdr := h, closed := false } psz hm h0 h1
    (pixelTypeSizes_at_le _ _ hm)
  have hfs0 : 0 ≤ h.ny * h.nx * (psz : Int) := mul_nonneg h0 (by omega)
  have hfs1 : h.ny * h.nx * (psz : Int) ≤ 2147483648 * 8 :=
    mul_le_mul (by omega) (by have := pixelTypeSizes_at_le _ _ hm; omega) (by omega) (by omega)
  have hws := writeSections_append frames _ _ rfl rfl rfl (by simp [hl]) hfs hfs0
    (lt_of_le_of_lt hfs1 (by decide))
    (fun a ha => by have := hlen a ha; simp only at this ⊢; omega)
  unfold writeVolume DVFile.createNew
  rw [if_pos hcr]
  simp only [hput, hws, hl]

/-- The call `readSec(buffer)` on an open file whose stream has not failed. -/
theorem readSec_eq (f : DVFile) (fs : Int) (hc : f.closed = false)
    (hfs : f.frame_size = .ok fs) (h0 : 0 ≤ fs) (h1 : fs < 9223372036854775808)
    (hg : f._file.fail = false) (ho : f._file.is_open = true) :
    f.readSec =
      (.ok ((f._file.data.drop f._file.pos).take fs.toNat),
        { f with _file :=
          { f._file with
            pos := f._file.pos + ((f._file.data.drop f._file.pos).take fs.toNat).length,
            fail := decide (((f._file.data.drop f._file.pos).take fs.toNat).length <
              fs.toNat) } }) := by
  have hcount : ¬ fs < 0 := by omega
  simp only [DVFile.readSec, hc, Bool.false_eq_true, if_false, hfs,
    toStreamOff_of_lt fs h0 h1, if_neg hcount, FStream.read, hg, ho, if_true]

/-- Reading back from the object that the write part of the scenario leaves:
the three-index read, given a valid triple in the order `(t, w, z)` of its
parameter list, returns the frame at the linear index
`t*num_waves*num_planes() + w*num_planes() + z`. -/
theorem writeVolume_read (disk : Disk) (path : String) (h : IW_MRC_Header)
    (frames : List (List Nat)) (psz : Nat) (z w t : Int)
    (hcr : disk.creatable path = true) (hwf : h.wf)
    (hm : pixelTypeSizes_at h.mode = .ok psz) (hinb : h.inbsym = 0)
    (h0 : 0 ≤ h.ny * h.nx) (h1 : h.ny * h.nx < 2147483648)
    (hN : (frames.length : Int) = h.num_waves * h.num_times * h.num_planes)
    (hlen : ∀ a ∈ frames, (a.length : Int) = h.ny * h.nx * (psz : Int))
    (hend : 1024 + h.num_waves * h.num_times * h.num_planes * (h.ny * h.nx * (psz : Int)) <
      9223372036854775808)
    (hv : h.validZWT z w t) :
    ∃ f2 f3 : DVFile, writeVolume disk path h frames = .ok f2 ∧
      f2.readSecTWZ t w z =
        (.ok (frames.getD (t * h.num_waves * h.num_planes + w * h.num_planes + z).toNat []),
          f3) := by
  have hl := encode_length h hwf
  have hp8 := pixelTypeSizes_at_le _ _ hm
  refine ⟨_,
    { _file := { data := IW_MRC_Header.encode h ++ frames.flatten,
                 pos := (h.spec_offset psz z w t).toNat +
                   (frames.getD (t * h.num_waves * h.num_planes + w * h.num_planes + z).toNat
                     []).length,
                 is_open := true, fail := false },
      _path := path, _big_endian := false, hdr := h, closed := false },
    writeVolume_eq disk path h frames psz hcr hwf hm h0 h1 hlen, ?_⟩
  obtain ⟨⟨ht0, ht⟩, ⟨hw0, hw⟩, ⟨hz0, hz⟩⟩ := id hv
  obtain ⟨a1, a2, a3, a4, a5, a6, a7⟩ :=
    section_index_bounds h.num_waves h.num_times h.num_planes z w t ht0 ht hw0 hw hz0 hz
  have hfs0 : 0 ≤ h.ny * h.nx * (psz : Int) := mul_nonneg h0 (by omega)
  have e4 : h.num_times * h.num_waves * h.num_planes = h.num_waves * h.num_times * h.num_planes := by
    ring
  have b1 : (t * h.num_waves * h.num_planes + w * h.num_planes + z + 1) *
      (h.ny * h.nx * (psz : Int)) ≤
      h.num_waves * h.num_times * h.num_planes * (h.ny * h.nx * (psz : Int)) :=
    mul_le_mul_of_nonneg_right (by omega) hfs0
  have b2 : 0 ≤ (t * h.num_waves * h.num_planes + w * h.num_planes + z) *
      (h.ny * h.nx * (psz : Int)) := mul_nonneg (by omega) hfs0
  have b3 : (t * h.num_waves * h.num_planes + w * h.num_planes + z + 1) *
      (h.ny * h.nx * (psz : Int)) =
      (t * h.num_waves * h.num_planes + w * h.num_planes + z) * (h.ny * h.nx * (psz : Int)) +
        h.ny * h.nx * (psz : Int) := by ring
  have b5 : h.spec_offset psz z w t = 1024 +
      (t * h.num_waves * h.num_planes + w * h.num_planes + z) * (h.ny * h.nx * (psz : Int)) := by
    unfold IW_MRC_Header.spec_offset
    rw [hinb]
    ring
  -- the seek
  have hseek := setCurrentZWT_eq
    { _file := { data := IW_MRC_Header.encode h ++ frames.flatten,
                 pos := 1024 + frames.flatten.length, is_open := true, fail := false },
      _path := path, _big_endian := false, hdr := h, closed := false } z w t psz hwf hm hv
    (by show isI32 (h.ny * h.nx); unfold isI32; omega)
    (by show isI32 (1024 + h.inbsym); unfold isI32; omega)
    (by show 0 ≤ h.spec_offset psz z w t; omega)
    (by show h.spec_offset psz z w t < 9223372036854775808; omega) rfl rfl
  -- the read
  have hfs := frame_size_eq
    { _file := { data := IW_MRC_Header.encode h ++ frames.flatten,
                 pos := (h.spec_offset psz z w t).toNat, is_open := true, fail := false },
      _path := path, _big_endian := false, hdr := h, closed := false } psz hm h0 h1 hp8
  have hlenN : ∀ a ∈ frames, a.length = (h.ny * h.nx * (psz : Int)).toNat := by
    intro a ha
    have := hlen a ha
    omega
  have hidx : (t * h.num_waves * h.num_planes + w * h.num_planes + z).toNat < frames.length := by
    omega
  have hpos : (h.spec_offset psz z w t).toNat = (IW_MRC_Header.encode h).length +
      (t * h.num_waves * h.num_planes + w * h.num_planes + z).toNat *
        (h.ny * h.nx * (psz : Int)).toNat := by
    rw [hl, b5]
    have c1 : ((t * h.num_waves * h.num_planes + w * h.num_planes + z).toNat : Int) =
        t * h.num_waves * h.num_planes + w * h.num_planes + z := Int.toNat_of_nonneg (by omega)
    have c2 : ((h.ny * h.nx * (psz : Int)).toNat : Int) = h.ny * h.nx * (psz : Int) :=
      Int.toNat_of_nonneg hfs0
    have c3 : (1024 + (t * h.num_waves * h.num_planes + w * h.num_planes + z) *
        (h.ny * h.nx * (psz : Int))) =
        ((1024 + (t * h.num_waves * h.num_planes + w * h.num_planes + z).toNat *
          (h.ny * h.nx * (psz : Int)).toNat : Nat) : Int) := by
      push_cast
      rw [c1, c2]
    rw [c3, Int.toNat_ofNat]
  have hslice := flatten_slice (h.ny * h.nx * (psz : Int)).toNat frames _ hlenN hidx
  have hgot : List.take (h.ny * h.nx * (psz : Int)).toNat
      (List.drop (h.spec_offset psz z w t).toNat (IW_MRC_Header.encode h ++ frames.flatten)) =
      frames.getD (t * h.num_waves * h.num_planes + w * h.num_planes + z).toNat [] := by
    rw [hpos, List.drop_append, hslice]
  have hgl : (frames.getD (t * h.num_waves * h.num_planes + w * h.num_planes + z).toNat
      []).length = (h.ny * h.nx * (psz : Int)).toNat := by
    rw [List.getD_eq_getElem _ _ hidx]
    exact hlenN _ (List.getElem_mem ..)
  have hfs1 : h.ny * h.nx * (psz : Int) ≤ 2147483648 * 8 :=
    mul_le_mul (by omega) (by omega) (by omega) (by omega)
  have hcount : toStreamOff (h.ny * h.nx * (psz : Int)) = h.ny * h.nx * (psz : Int) :=
    toStreamOff_of_lt _ hfs0 (by omega)
  have hcount0 : ¬ h.ny * h.nx * (psz : Int) < 0 := by omega
  unfold DVFile.readSecTWZ
  rw [hseek]
  simp only [DVFile.readSec, Bool.false_eq_true, if_false, hfs, hcount, if_neg hcount0,
    FStream.read, if_true, hgot, hgl, lt_self_iff_false, decide_False]

/-- C7 (amended): for a file created with `createNew`, a header with a
registered mode, `inbsym = 0` and `0 <= ny*nx < 2^31` written with `putHeader`,
and then `N = num_waves*num_times*num_planes()` frames of
`ny*nx*pixelSize(mode)` bytes written one after another with `writeSection`
(the data ending below `2^63`), the three-index read called with a valid
triple in the order of its parameter list, `readSec(buffer, t, w, z)`, returns
the frame written at the linear index
`t*num_waves*num_planes() + w*num_planes() + z`. -/
theorem readSec_roundtrip (disk : Disk) (path : String) (h : IW_MRC_Header)
    (frames : List (List Nat)) (psz : Nat) (z w t : Int)
    (hcr : disk.creatable path = true) (hwf : h.wf)
    (hm : pixelTypeSizes_at h.mode = .ok psz) (hinb : h.inbsym = 0)
    (h0 : 0 ≤ h.ny * h.nx) (h1 : h.ny * h.nx < 2147483648)
    (hN : (frames.length : Int) = h.num_waves * h.num_times * h.num_planes)
    (hlen : ∀ a ∈ frames, (a.length : Int) = h.ny * h.nx * (psz : Int))
    (hend : 1024 + h.num_waves * h.num_times * h.num_planes * (h.ny * h.nx * (psz : Int)) <
      9223372036854775808)
    (hv : h.validZWT z w t) :
    ∃ f2 f3 : DVFile, writeVolume disk path h frames = .ok f2 ∧
      f2.readSecTWZ t w z =
        (.ok (frames.getD (t * h.num_waves * h.num_planes + w * h.num_planes + z).toNat []),
          f3) :=
  writeVolume_read disk path h frames psz z w t hcr hwf hm hinb h0 h1 hN hlen hend hv

theorem length_flatten_replicate (k : Nat) (l : List Nat) :
    (List.replicate k l).flatten.length = k * l.length := by
  induction k with
  | zero => simp
  | succ n ih =>
    rw [List.replicate_succ, List.flatten, List.length_append, ih]
    ring

theorem scenarioFrames_length :
    ∀ a ∈ scenarioFrames,
      (a.length : Int) = scenarioHeader.ny * scenarioHeader.nx * ((2 : Nat) : Int) := by
  intro a ha
  unfold scenarioFrames at ha
  obtain ⟨i, -, rfl⟩ := List.mem_map.mp ha
  unfold scenarioFrame
  rw [length_flatten_replicate, length_leU16]
  decide

theorem scenarioFrames_getD_5 : scenarioFrames.getD 5 [] = scenarioFrame 5 := by
  simp [scenarioFrames, List.range, List.range.loop]

/-- Instance of C7 (amended), the scenario of the specification: 64 x 32
`IW_SHORT` pixels, `nz = 6`, two wavelengths, three time points, six frames;
`readSec(buffer, t=2, w=1, z=0)` returns frame 5. -/
theorem readSec_roundtrip_witness :
    ∃ f2 f3 : DVFile,
      writeVolume (exampleDisk []) "example.dv" scenarioHeader scenarioFrames = .ok f2 ∧
      f2.readSecTWZ 2 1 0 = (.ok (scenarioFrame 5), f3) := by
  have h := readSec_roundtrip (exampleDisk []) "example.dv" scenarioHeader scenarioFrames 2
    0 1 2 rfl scenarioHeader_wf rfl rfl (by decide) (by decide) (by decide)
    scenarioFrames_length (by decide) (by decide)
  have hi : (2 * scenarioHeader.num_waves * scenarioHeader.num_planes +
      1 * scenarioHeader.num_planes + 0).toNat = 5 := by decide
  rw [hi, scenarioFrames_getD_5] at h
  exact h

/-- In the scenario, the three-index read given `(0, 1, 2)` takes 0 as `t`, 1
as `w` and 2 as `z`, and `z = 2` is beyond the single plane. -/
theorem scenario_read_012 :
    ∃ f2 : DVFile,
      writeVolume (exampleDisk []) "example.dv" scenarioHeader scenarioFrames = .ok f2 ∧
      f2.readSecTWZ 0 1 2 = (.error .sectionIndex, f2) := by
  refine ⟨_, writeVolume_eq (exampleDisk []) "example.dv" scenarioHeader scenarioFrames 2 rfl
    scenarioHeader_wf rfl (by decide) (by decide) scenarioFrames_length, ?_⟩
  rfl

theorem extendedHeader_wf : extendedHeader.wf :=
  ⟨by decide, isBytes_replicate 24, isBytes_replicate 800⟩

/-- C7 as stated fails. In the scenario of the specification the call with
the indexes in the order `(z, w, t) = (0, 1, 2)` throws the section-index
error instead of returning frame 5. And for a header with `inbsym = 4` (one
1 x 1 byte frame) the frame written after the header lies at offset 1024 while
the read seeks to 1028: it returns no byte. -/
theorem readSec_roundtrip_counterexample :
    (∃ f2 : DVFile,
      writeVolume (exampleDisk []) "example.dv" scenarioHeader scenarioFrames = .ok f2 ∧
      f2.readSecTWZ 0 1 2 = (.error .sectionIndex, f2)) ∧
    (extendedHeader.wf ∧ extendedHeader.validZWT 0 0 0 ∧
      ∃ f2 : DVFile,
        writeVolume (exampleDisk []) "example.dv" extendedHeader [[7]] = .ok f2 ∧
        (f2.readSecTWZ 0 0 0).1 = .ok []) := by
  refine ⟨scenario_read_012, extendedHeader_wf, by decide, ?_⟩
  have hl := encode_length extendedHeader extendedHeader_wf
  refine ⟨_, writeVolume_eq (exampleDisk []) "example.dv" extendedHeader [[7]] 1 rfl
    extendedHeader_wf rfl (by decide) (by decide) (by decide), ?_⟩
  have hseek := setCurrentZWT_eq
    { _file := { data := IW_MRC_Header.encode extendedHeader ++ [[7]].flatten,
                 pos := 1024 + [[7]].flatten.length, is_open := true, fail := false },
      _path := "example.dv", _big_endian := false, hdr := extendedHeader, closed := false }
    0 0 0 1 extendedHeader_wf rfl (by decide) (by decide) (by decide) (by decide) (by decide)
    rfl rfl
  have hp : (extendedHeader.spec_offset 1 0 0 0).toNat = 1028 := by decide
  have hread := readSec_eq
    { _file := { data := IW_MRC_Header.encode extendedHeader ++ [[7]].flatten,
                 pos := 1028, is_open := true, fail := false },
      _path := "example.dv", _big_endian := false, hdr := extendedHeader, closed := false }
    1 rfl rfl (by decide) (by decide) rfl rfl
  have hd : List.drop 1028 (IW_MRC_Header.encode extendedHeader ++ [[7]].flatten) = [] :=
    List.drop_of_length_le (by simp [hl])
  unfold DVFile.readSecTWZ
  rw [hseek]
  simp only [hp]
  rw [hread]
  simp only [hd]
  rfl

/-! ## The three-index read -/

/-- C8 (amended): the three-index read is seek-then-read with its integer
arguments taken in the order `(t, w, z)`: `readSec(buffer, a, b, c)` has the
same result (error, bytes read, object after the call) as
`setCurrentZWT(z=c, w=b, t=a)` followed by `readSec(buffer)`. -/
theorem readSecTWZ_eq_spec (f : DVFile) (a b c : Int) :
    f.readSecTWZ a b c = spec_ReadSection f c b a := rfl

/-- C8 as stated fails: on the scenario file, the read given `(0, 1, 2)`
throws the section-index error, while `setCurrentZWT(z=0, w=1, t=2)` followed
by `readSec(buffer)` returns frame 5. -/
theorem readSecTWZ_eq_spec_counterexample :
    ∃ f2 : DVFile,
      writeVolume (exampleDisk []) "example.dv" scenarioHeader scenarioFrames = .ok f2 ∧
      f2.readSecTWZ 0 1 2 = (.error .sectionIndex, f2) ∧
      (spec_ReadSection f2 0 1 2).1 = .ok (scenarioFrame 5) ∧
      f2.readSecTWZ 0 1 2 ≠ spec_ReadSection f2 0 1 2 := by
  obtain ⟨f2, hw, hr⟩ := scenario_read_012
  obtain ⟨g2, g3, hw', hr'⟩ := writeVolume_read (exampleDisk []) "example.dv" scenarioHeader
    scenarioFrames 2 0 1 2 rfl scenarioHeader_wf rfl rfl (by decide) (by decide) (by decide)
    scenarioFrames_length (by decide) (by decide)
  have hi : (2 * scenarioHeader.num_waves * scenarioHeader.num_planes +
      1 * scenarioHeader.num_planes + 0).toNat = 5 := by decide
  rw [hi, scenarioFrames_getD_5] at hr'
  rw [hw] at hw'
  injection hw' with hw'
  subst hw'
  have hs : (spec_ReadSection f2 0 1 2).1 = .ok (scenarioFrame 5) := by
    show (f2.readSecTWZ 2 1 0).1 = _
    rw [hr']
  refine ⟨f2, hw, hr, hs, ?_⟩
  intro he
  rw [← he, hr] at hs
  cases hs

/-! ## Axis sequence and axis sizes -/

/-- C17: `sequence_order()` is "CTZ" for `interleaved = 0`, "TZC" for 1, "TCZ"
for 2 and "CTZ" for every other value; in every case it is an ordering of
the three letters C, T, Z, each exactly once. -/
theorem sequence_order_cases (h : IW_MRC_Header) :
    (h.interleaved = 0 → h.sequence_order = "CTZ") ∧
    (h.interleaved = 1 → h.sequence_order = "TZC") ∧
    (h.interleaved = 2 → h.sequence_order = "TCZ") ∧
    (h.interleaved ≠ 0 → h.interleaved ≠ 1 → h.interleaved ≠ 2 → h.sequence_order = "CTZ") ∧
    h.sequence_order.toList.Perm ['C', 'T', 'Z'] := by
  unfold IW_MRC_Header.sequence_order
  refine ⟨fun h0 => by rw [if_pos h0], fun h1 => ?_, fun h2 => ?_, fun h0 h1 h2 => ?_, ?_⟩
  · rw [if_neg (by omega), if_pos h1]
  · rw [if_neg (by omega), if_neg (by omega), if_pos h2]
  · rw [if_neg h0, if_neg h1, if_neg h2]
  · split
    · decide
    · split
      · decide
      · split
        · decide
        · decide

/-- Instance of C17: the zero header has "CTZ", `interleaved = 1` gives "TZC",
`interleaved = 2` gives "TCZ", and `interleaved = 7` falls back to "CTZ". -/
theorem sequence_order_cases_witness :
    IW_MRC_Header.zero.sequence_order = "CTZ" ∧
    ({ IW_MRC_Header.zero with interleaved := 1 }).sequence_order = "TZC" ∧
    ({ IW_MRC_Header.zero with interleaved := 2 }).sequence_order = "TCZ" ∧
    ({ IW_MRC_Header.zero with interleaved := 7 }).sequence_order = "CTZ" :=
  ⟨(sequence_order_cases IW_MRC_Header.zero).1 rfl,
   (sequence_order_cases { IW_MRC_Header.zero with interleaved := 1 }).2.1 rfl,
   (sequence_order_cases { IW_MRC_Header.zero with interleaved := 2 }).2.2.1 rfl,
   (sequence_order_cases { IW_MRC_Header.zero with interleaved := 7 }).2.2.2.1
     (by decide) (by decide) (by decide)⟩

/-- The loop of `sizes()` over a sequence of axis letters that contains each
of C, T, Z, Y, X. -/
theorem sizes_fold (d : StdMap) (axes : List Char) (k : String) (m0 : StdMap) :
    (axes.foldl (fun sizes c => sizes.set (String.singleton c) (d.get (String.singleton c)))
      m0) k =
      if k ∈ axes.map String.singleton then some (d.get k) else m0 k := by
  induction axes generalizing m0 with
  | nil => simp
  | cons c rest ih =>
    rw [List.foldl_cons, ih]
    by_cases h1 : k ∈ rest.map String.singleton
    · simp [h1]
    · by_cases h2 : k = String.singleton c
      · simp [h1, h2, StdMap.set]
      · simp [h1, h2, StdMap.set]

/-- The mapping that `sizes()` builds from a plane count `p`. -/
theorem sizes_of_planes (f : DVFile) (p : Int) (hp : f.hdr.num_planes? = some p) :
    ∃ sizes : StdMap, f.sizes = some sizes ∧
      ∀ k : String, sizes k =
        if k = "C" then some f.hdr.num_waves
        else if k = "T" then some f.hdr.num_times
        else if k = "Z" then some p
        else if k = "Y" then some f.hdr.ny
        else if k = "X" then some f.hdr.nx
        else none := by
  have hax : ∀ (k s : String), s = "CTZ" ∨ s = "TZC" ∨ s = "TCZ" →
      (k ∈ (s ++ "YX").toList.map String.singleton ↔
        (k = "C" ∨ k = "T" ∨ k = "Z" ∨ k = "Y" ∨ k = "X")) := by
    intro k s hs
    rcases hs with rfl | rfl | rfl
    · have e : ("CTZ" ++ "YX").toList.map String.singleton = ["C", "T", "Z", "Y", "X"] := by
        decide
      rw [e]; simp
    · have e : ("TZC" ++ "YX").toList.map String.singleton = ["T", "Z", "C", "Y", "X"] := by
        decide
      rw [e]; simp; tauto
    · have e : ("TCZ" ++ "YX").toList.map String.singleton = ["T", "C", "Z", "Y", "X"] := by
        decide
      rw [e]; simp; tauto
  have hs : f.hdr.sequence_order = "CTZ" ∨ f.hdr.sequence_order = "TZC" ∨
      f.hdr.sequence_order = "TCZ" := by
    unfold IW_MRC_Header.sequence_order
    split
    · exact Or.inl rfl
    · split
      · exact Or.inr (Or.inl rfl)
      · split
        · exact Or.inr (Or.inr rfl)
        · exact Or.inl rfl
  unfold IW_MRC_Header.num_planes? at hp
  unfold DVFile.sizes
  rw [hp]
  refine ⟨_, rfl, fun k => ?_⟩
  simp only [sizes_fold, hax k _ hs]
  by_cases hC : k = "C"
  · subst hC; simp [StdMap.get, StdMap.set, StdMap.empty]
  by_cases hT : k = "T"
  · subst hT; simp [StdMap.get, StdMap.set, StdMap.empty]
  by_cases hZ : k = "Z"
  · subst hZ; simp [StdMap.get, StdMap.set, StdMap.empty]
  by_cases hY : k = "Y"
  · subst hY; simp [StdMap.get, StdMap.set, StdMap.empty]
  by_cases hX : k = "X"
  · subst hX; simp [StdMap.get, StdMap.set, StdMap.empty]
  simp [hC, hT, hZ, hY, hX, StdMap.empty]

/-- There is no mapping exactly where `num_planes()` has no value. -/
theorem sizes_none_iff (f : DVFile) : f.sizes = none ↔ f.hdr.num_planes? = none := by
  unfold DVFile.sizes IW_MRC_Header.num_planes?
  split
  · rename_i e
    rw [e]
    exact ⟨fun _ => rfl, fun _ => rfl⟩
  · rename_i q e
    rw [e]
    exact ⟨fun x => (by cases x), fun x => (by cases x)⟩

/-- C13: for every header on which the two divisions of the plane count have a
value, whatever `interleaved` is, `sizes()` returns a mapping of exactly the
five keys "C", "T", "Z", "Y", "X", to `num_waves`, `num_times`,
`num_planes()`, `ny` and `nx`; the only headers without a mapping are those
with `nz = INT_MIN` and a quotient `INT_MIN / -1` (`num_waves = -1`, or
`num_waves` 0 or 1 and `num_times = -1`), on which `sizes()` does not
return. -/
theorem sizes_eq (f : DVFile) :
    (∀ p : Int, f.hdr.num_planes? = some p →
      ∃ sizes : StdMap, f.sizes = some sizes ∧
        ∀ k : String, sizes k =
          if k = "C" then some f.hdr.num_waves
          else if k = "T" then some f.hdr.num_times
          else if k = "Z" then some p
          else if k = "Y" then some f.hdr.ny
          else if k = "X" then some f.hdr.nx
          else none) ∧
    (f.hdr.wf →
      (f.sizes = none ↔
        f.hdr.nz = -2147483648 ∧
          (f.hdr.num_waves = -1 ∨
            ((f.hdr.num_waves = 0 ∨ f.hdr.num_waves = 1) ∧ f.hdr.num_times = -1)))) :=
  ⟨sizes_of_planes f, fun hwf =>
    (sizes_none_iff f).trans (num_planes?_eq_none_iff f.hdr hwf.1.1.2.2.1)⟩

/-- Instance of C13: the mapping of the scenario file, C = 2, T = 3, Z = 1,
Y = 32, X = 64. -/
theorem sizes_eq_witness :
    ∃ sizes : StdMap, (exampleFile scenarioHeader).sizes = some sizes ∧
      ∀ k : String, sizes k =
        if k = "C" then some 2
        else if k = "T" then some 3
        else if k = "Z" then some 1
        else if k = "Y" then some 32
        else if k = "X" then some 64
        else none :=
  (sizes_eq (exampleFile scenarioHeader)).1 1 (by decide)

/-- C13 as stated fails: the header with `nz = INT_MIN`, `num_waves = 0` and
`num_times = -1` is well formed, and `sizes()` returns no mapping on it: the
second division of `num_real_z` is `INT_MIN / -1`. -/
theorem sizes_eq_counterexample :
    overflowHeader.wf ∧ (exampleFile overflowHeader).sizes = none ∧
    ¬ ∃ sizes : StdMap, (exampleFile overflowHeader).sizes = some sizes := by
  have e : (exampleFile overflowHeader).sizes = none := by
    unfold DVFile.sizes
    have e1 : (cDiv? (exampleFile overflowHeader).hdr.nz
        (if (exampleFile overflowHeader).hdr.num_waves ≠ 0 then
          (exampleFile overflowHeader).hdr.num_waves else 1)).bind
        (fun q => cDiv? q (if (exampleFile overflowHeader).hdr.num_times ≠ 0 then
          (exampleFile overflowHeader).hdr.num_times else 1)) = none := by decide
    rw [e1]
  refine ⟨overflowHeader_wf, e, ?_⟩
  rw [e]
  rintro ⟨m, hm⟩
  cases hm

/-! ## Writing a title with `IMWrHdr` -/

theorem strncpy_80 (dest src : List Nat) :
    strncpy dest src 80 = spec_title80 (cstr src) ++ dest.drop 80 := by
  unfold strncpy spec_title80
  rw [List.length_take]
  congr 3
  omega

theorem spec_title80_length (s : List Nat) : (spec_title80 s).length = 80 := by
  unfold spec_title80
  rw [List.length_append, List.length_take, List.length_replicate]
  omega

theorem cstr_append_zero (s r : List Nat) (hs : ∀ b ∈ s, b ≠ 0) : cstr (s ++ 0 :: r) = s := by
  unfold cstr
  rw [List.takeWhile_append_of_pos (by simpa using hs)]
  simp

theorem cstr_of_nonzero (s : List Nat) (hs : ∀ b ∈ s, b ≠ 0) : cstr s = s := by
  unfold cstr
  rw [List.takeWhile_eq_self_iff]
  simpa using hs

theorem putHeader_hdr (f : DVFile) (header : IW_MRC_Header) (hopen : f.closed = false) :
    (f.putHeader header).2.hdr = header := by
  simp [DVFile.putHeader, hopen]

theorem putHeader_closed (f : DVFile) (header : IW_MRC_Header) :
    (f.putHeader header).2.closed = f.closed := by
  unfold DVFile.putHeader
  split <;> rfl

/-- The outcome of `IMWrHdr` with `ntflag = 0` on a registered, open file. -/
theorem IMWrHdr_flag0 (m : HandleTable) (istream : Int) (f : DVFile) (title : List Nat)
    (dmin dmax dmean : Nat) (hreg : m istream = some f) (hopen : f.closed = false) :
    IMWrHdr m istream title 0 dmin dmax dmean =
      (.ok (), m.set istream
        (f.putHeader
          { f.hdr with amin := dmin, amax := dmax, amean := dmean,
                       label := spec_title80 (cstr title) ++ f.hdr.label.drop 80 }).2) := by
  simp [IMWrHdr, getDVFile, hreg, DVFile.putHeader, hopen, DVFile.getHeader, strncpy_80]

/-- The outcome of `IMWrHdr` with `ntflag = 1` on a registered, open file. -/
theorem IMWrHdr_flag1 (m : HandleTable) (istream : Int) (f : DVFile) (title : List Nat)
    (dmin dmax dmean : Nat) (hreg : m istream = some f) (hopen : f.closed = false) :
    IMWrHdr m istream title 1 dmin dmax dmean =
      (.ok (), m.set istream
        (f.putHeader
          { f.hdr with amin := dmin, amax := dmax, amean := dmean,
                       label := spec_title80 (cstr (cstr title ++ [32] ++ cstr f.hdr.label)) ++
                         f.hdr.label.drop 80 }).2) := by
  simp [IMWrHdr, getDVFile, hreg, DVFile.putHeader, hopen, DVFile.getHeader, strncpy_80]

theorem title_abc_label :
    spec_title80 (cstr (asciiBytes "abc")) ++ (List.replicate 800 0).drop 80 =
      asciiBytes "abc" ++ List.replicate 797 0 := by
  have e1 : spec_title80 (cstr (asciiBytes "abc")) = asciiBytes "abc" ++ List.replicate 77 0 := by
    decide
  rw [e1, List.drop_replicate, List.append_assoc, List.append_replicate_replicate]

theorem title_xyz_label :
    spec_title80 (cstr (cstr (asciiBytes "xyz") ++ [32] ++
        cstr (asciiBytes "abc" ++ List.replicate 797 0))) ++
      (asciiBytes "abc" ++ List.replicate 797 0).drop 80 =
      asciiBytes "xyz abc" ++ List.replicate 793 0 := by
  have e0 : cstr (asciiBytes "abc" ++ List.replicate 797 0) = asciiBytes "abc" := by
    have : List.replicate 797 0 = 0 :: List.replicate 796 0 := List.replicate_succ 0 796
    rw [this]
    exact cstr_append_zero _ _ (by decide)
  have e1 : spec_title80 (cstr (cstr (asciiBytes "xyz") ++ [32] ++ asciiBytes "abc")) =
      asciiBytes "xyz abc" ++ List.replicate 73 0 := by decide
  have e2 : (asciiBytes "abc" ++ List.replicate 797 0).drop 80 = List.replicate 720 0 := by
    have hl : (asciiBytes "abc").length = 3 := by decide
    have : (80 : Nat) = (asciiBytes "abc").length + 77 := by rw [hl]
    rw [this, List.drop_append, List.drop_replicate]
  rw [e0, e1, e2, List.append_assoc, List.append_replicate_replicate]

/-- C11: on a registered, open file, `IMWrHdr` with `ntflag = 0` sets the
first 80 label bytes to the title cut to 80 bytes and filled up with NUL
bytes, leaves the label bytes 80..799 and every header field other than
`amin`, `amax`, `amean` as they were; from an empty label, the title "abc"
gives the label "abc" filled up with NUL bytes, and a following call with
`ntflag = 1` and the title "xyz" gives the label "xyz abc" filled up with NUL
bytes. -/
theorem IMWrHdr_title (m : HandleTable) (istream : Int) (f : DVFile) (title : List Nat)
    (dmin dmax dmean : Nat) (hwf : f.hdr.wf) (hreg : m istream = some f)
    (hopen : f.closed = false) :
    (∃ f1 : DVFile,
      IMWrHdr m istream title 0 dmin dmax dmean = (.ok (), m.set istream f1) ∧
      f1.hdr = { f.hdr with amin := dmin, amax := dmax, amean := dmean,
                            label := f1.hdr.label } ∧
      f1.hdr.label.take 80 = spec_title80 (cstr title) ∧
      f1.hdr.label.drop 80 = f.hdr.label.drop 80 ∧
      f1.hdr.label.length = 800) ∧
    (f.hdr.label = List.replicate 800 0 →
      ∃ f1 f2 : DVFile,
        IMWrHdr m istream (asciiBytes "abc") 0 dmin dmax dmean = (.ok (), m.set istream f1) ∧
        f1.hdr.label = asciiBytes "abc" ++ List.replicate 797 0 ∧
        IMWrHdr (m.set istream f1) istream (asciiBytes "xyz") 1 dmin dmax dmean =
          (.ok (), (m.set istream f1).set istream f2) ∧
        f2.hdr.label = asciiBytes "xyz abc" ++ List.replicate 793 0) := by
  have hlen : f.hdr.label.length = 800 := hwf.2.2.1
  constructor
  · refine ⟨_, IMWrHdr_flag0 m istream f title dmin dmax dmean hreg hopen, ?_, ?_, ?_, ?_⟩
    · rw [putHeader_hdr _ _ hopen]
    · rw [putHeader_hdr _ _ hopen]
      exact take_bytes _ _ 80 (spec_title80_length _)
    · rw [putHeader_hdr _ _ hopen]
      exact List.drop_left' (spec_title80_length _)
    · rw [putHeader_hdr _ _ hopen]
      show (spec_title80 (cstr title) ++ List.drop 80 f.hdr.label).length = 800
      rw [List.length_append, spec_title80_length, List.length_drop, hlen]
  · intro hempty
    have hopen1 : (f.putHeader
        { f.hdr with amin := dmin, amax := dmax, amean := dmean,
                     label := spec_title80 (cstr (asciiBytes "abc")) ++ f.hdr.label.drop 80 }
        ).2.closed = false := by
      rw [putHeader_closed, hopen]
    have hl1 : (f.putHeader
        { f.hdr with amin := dmin, amax := dmax, amean := dmean,
                     label := spec_title80 (cstr (asciiBytes "abc")) ++ f.hdr.label.drop 80 }
        ).2.hdr.label = asciiBytes "abc" ++ List.replicate 797 0 := by
      rw [putHeader_hdr _ _ hopen]
      show spec_title80 (cstr (asciiBytes "abc")) ++ List.drop 80 f.hdr.label = _
      rw [hempty]
      exact title_abc_label
    refine ⟨_, _, IMWrHdr_flag0 m istream f (asciiBytes "abc") dmin dmax dmean hreg hopen, hl1,
      IMWrHdr_flag1 (m.set istream _) istream
        (f.putHeader
          { f.hdr with amin := dmin, amax := dmax, amean := dmean,
                       label := spec_title80 (cstr (asciiBytes "abc")) ++ f.hdr.label.drop 80 }
          ).2 (asciiBytes "xyz") dmin dmax dmean ?_ hopen1, ?_⟩
    · simp [HandleTable.set]
    · rw [putHeader_hdr _ _ hopen1]
      show spec_title80 (cstr (cstr (asciiBytes "xyz") ++ [32] ++ cstr _)) ++ List.drop 80 _ = _
      rw [hl1]
      exact title_xyz_label

/-- Instance of C11: the zero header (empty label) registered under the
identifier 1, titled "abc" and then "xyz". -/
theorem IMWrHdr_title_witness :
    ∃ f1 f2 : DVFile,
      IMWrHdr (exampleTable (exampleFile IW_MRC_Header.zero)) 1 (asciiBytes "abc") 0 0 0 0 =
        (.ok (), (exampleTable (exampleFile IW_MRC_Header.zero)).set 1 f1) ∧
      f1.hdr.label = asciiBytes "abc" ++ List.replicate 797 0 ∧
      IMWrHdr ((exampleTable (exampleFile IW_MRC_Header.zero)).set 1 f1) 1 (asciiBytes "xyz") 1
          0 0 0 =
        (.ok (), ((exampleTable (exampleFile IW_MRC_Header.zero)).set 1 f1).set 1 f2) ∧
      f2.hdr.label = asciiBytes "xyz abc" ++ List.replicate 793 0 :=
  (IMWrHdr_title (exampleTable (exampleFile IW_MRC_Header.zero)) 1
    (exampleFile IW_MRC_Header.zero) (asciiBytes "abc") 0 0 0 zero_wf rfl rfl).2 rfl

/-- C12: for a registered stream and an `ntflag` other than 0 and 1, `IMWrHdr`
throws the invalid-ntflag error and the handle table is as before the call:
the file's in-memory header (`amin`, `amax`, `amean` and the label included)
and the bytes of the file are unchanged. -/
theorem IMWrHdr_bad_ntflag (m : HandleTable) (istream : Int) (f : DVFile) (title : List Nat)
    (ntflag : Int) (dmin dmax dmean : Nat) (hreg : m istream = some f) (h0 : ntflag ≠ 0)
    (h1 : ntflag ≠ 1) :
    IMWrHdr m istream title ntflag dmin dmax dmean = (.error (.invalidNtflag ntflag), m) ∧
    (∀ g : DVFile,
      getDVFile (IMWrHdr m istream title ntflag dmin dmax dmean).2 istream = .ok g →
      g.getHeader = f.hdr ∧ g._file.data = f._file.data ∧ g = f) := by
  have e : IMWrHdr m istream title ntflag dmin dmax dmean =
      (.error (.invalidNtflag ntflag), m) := by
    simp [IMWrHdr, getDVFile, hreg, h0, h1]
  refine ⟨e, ?_⟩
  intro g hg
  rw [e] at hg
  simp only [getDVFile, hreg, Except.ok.injEq] at hg
  subst hg
  exact ⟨rfl, rfl, rfl⟩

/-- Instance of C12: `ntflag = 2` on the scenario file registered under the
identifier 1. -/
theorem IMWrHdr_bad_ntflag_witness :
    IMWrHdr (exampleTable (exampleFile scenarioHeader)) 1 (asciiBytes "abc") 2 0 0 0 =
      (.error (.invalidNtflag 2), exampleTable (exampleFile scenarioHeader)) :=
  (IMWrHdr_bad_ntflag (exampleTable (exampleFile scenarioHeader)) 1 (exampleFile scenarioHeader)
    (asciiBytes "abc") 2 0 0 0 rfl (by decide) (by decide)).1

/-! ## The handle table -/

theorem seek_is_open (s : FStream) (off : Int) : (s.seek off).is_open = s.is_open := by
  unfold FStream.seek
  split
  · rfl
  · split <;> rfl

theorem read_is_open (s : FStream) (n : Nat) : (s.read n).2.is_open = s.is_open := by
  unfold FStream.read
  split <;> rfl

/-- A file made by the constructor is open. -/
theorem ctor_open (disk : Disk) (path : String) (u : Indeterminate) (f : DVFile)
    (h : DVFile.ctor disk path u = .ok f) : f.closed = false ∧ f._file.is_open = true := by
  unfold DVFile.ctor at h
  split at h
  · cases h
  · have key : ∀ (s : FStream) (b : Bool), s.is_open = true →
        (DVFile.ctor_readHeader path s u b).closed = false ∧
        (DVFile.ctor_readHeader path s u b)._file.is_open = true := by
      intro s b hs
      refine ⟨rfl, ?_⟩
      show ((s.seek 0).read 1024).2.is_open = true
      rw [read_is_open, seek_is_open, hs]
    have hr : ∀ bytes : List Nat,
        (((FStream.opened bytes).seek (24 * 4)).read 2).2.is_open = true := by
      intro bytes
      rw [read_is_open, seek_is_open]
      rfl
    simp only at h
    split at h
    · injection h with h
      rw [← h]
      exact key _ _ (hr _)
    · split at h
      · injection h with h
        rw [← h]
        exact key _ _ (hr _)
      · cases h

/-- A file made by `createNew` is open. -/
theorem createNew_open (disk : Disk) (path : String) (f : DVFile)
    (h : DVFile.createNew disk path = .ok f) : f.closed = false ∧ f._file.is_open = true := by
  unfold DVFile.createNew at h
  split at h
  · injection h with h
    rw [← h]
    exact ⟨rfl, rfl⟩
  · cases h

/-- The table that `IMOpen` starts from, after an entry already registered
under the identifier is closed and erased. -/
theorem IMOpen_erased (m : HandleTable) (istream : Int) :
    (if (m istream).isSome then m.erase istream else m) = m.erase istream := by
  funext i
  by_cases hs : (m istream).isSome
  · rw [if_pos hs]
  · rw [if_neg hs]
    unfold HandleTable.erase
    by_cases hi : i = istream
    · rw [if_pos hi, hi]
      simpa using hs
    · rw [if_neg hi]

/-- The two outcomes of `IMOpen`: 0 and the new file registered over the
table without the identifier, or 1 and the table without the identifier. -/
theorem IMOpen_cases (disk : Disk) (u : Indeterminate) (m : HandleTable) (istream : Int)
    (name attrib : String) :
    (∃ file : DVFile, IMOpen disk u m istream name attrib = (0, (m.erase istream).set istream file) ∧
      ((attrib = "ro" ∧ DVFile.ctor disk name u = .ok file) ∨
       (attrib = "new" ∧ DVFile.createNew disk name = .ok file))) ∨
    IMOpen disk u m istream name attrib = (1, m.erase istream) := by
  unfold IMOpen
  rw [IMOpen_erased]
  by_cases hro : attrib = "ro"
  · simp only [if_pos hro]
    cases hc : DVFile.ctor disk name u with
    | ok file => exact Or.inl ⟨file, rfl, Or.inl ⟨hro, rfl⟩⟩
    | error e => exact Or.inr rfl
  · simp only [if_neg hro]
    by_cases hnew : attrib = "new"
    · simp only [if_pos hnew]
      cases hc : DVFile.createNew disk name with
      | ok file => exact Or.inl ⟨file, rfl, Or.inr ⟨hnew, rfl⟩⟩
      | error e => exact Or.inr rfl
    · rw [if_neg hnew]
      exact Or.inr rfl

/-- An open that succeeds makes `IMOpen` return 0 and register the new file
over the table without the identifier. -/
theorem IMOpen_ok (disk : Disk) (u : Indeterminate) (m : HandleTable) (istream : Int)
    (name attrib : String) (file : DVFile)
    (h : (attrib = "ro" ∧ DVFile.ctor disk name u = .ok file) ∨
      (attrib = "new" ∧ DVFile.createNew disk name = .ok file)) :
    IMOpen disk u m istream name attrib = (0, (m.erase istream).set istream file) := by
  unfold IMOpen
  rw [IMOpen_erased]
  rcases h with ⟨h1, h2⟩ | ⟨h1, h2⟩
  · simp only [if_pos h1, h2]
  · have hro : ¬ attrib = "ro" := by
      rw [h1]
      decide
    simp only [if_neg hro, if_pos h1, h2]

/-- C14: whenever the open itself succeeds (the constructor for "ro",
`createNew` for "new"), `IMOpen` returns 0 and the identifier then resolves to
the newly opened file, which is open, whether or not the identifier was
registered before; conversely an `IMOpen` that returns 0 has registered such a
file; after `IMClose` the identifier is not registered and `getDVFile` throws
stream-not-found; in both cases the entry of every other identifier is as
before. -/
theorem handle_table_lifecycle (disk : Disk) (u : Indeterminate) (m : HandleTable)
    (istream : Int) (name attrib : String) :
    (∀ file : DVFile,
      ((attrib = "ro" ∧ DVFile.ctor disk name u = .ok file) ∨
        (attrib = "new" ∧ DVFile.createNew disk name = .ok file)) →
      (IMOpen disk u m istream name attrib).1 = 0 ∧
      getDVFile (IMOpen disk u m istream name attrib).2 istream = .ok file ∧
      file.isClosed = false ∧ file._file.is_open = true ∧
      ∀ j : Int, j ≠ istream → (IMOpen disk u m istream name attrib).2 j = m j) ∧
    (∀ m1 : HandleTable, IMOpen disk u m istream name attrib = (0, m1) →
      (∃ file : DVFile, getDVFile m1 istream = .ok file ∧ file.isClosed = false ∧
        file._file.is_open = true ∧
        ((attrib = "ro" ∧ DVFile.ctor disk name u = .ok file) ∨
         (attrib = "new" ∧ DVFile.createNew disk name = .ok file))) ∧
      ∀ j : Int, j ≠ istream → m1 j = m j) ∧
    (getDVFile (IMClose m istream) istream = .error (.streamNotFound istream) ∧
      ∀ j : Int, j ≠ istream → IMClose m istream j = m j) := by
  have hopen : ∀ file : DVFile,
      ((attrib = "ro" ∧ DVFile.ctor disk name u = .ok file) ∨
        (attrib = "new" ∧ DVFile.createNew disk name = .ok file)) →
      file.closed = false ∧ file._file.is_open = true := by
    intro file hnew
    rcases hnew with ⟨-, hc⟩ | ⟨-, hc⟩
    · exact ctor_open disk name u file hc
    · exact createNew_open disk name file hc
  refine ⟨?_, ?_, ?_⟩
  · intro file hnew
    rw [IMOpen_ok disk u m istream name attrib file hnew]
    refine ⟨rfl, by simp [getDVFile, HandleTable.set], (hopen file hnew).1, (hopen file hnew).2,
      ?_⟩
    intro j hj
    simp [HandleTable.set, HandleTable.erase, hj]
  · intro m1 h
    rcases IMOpen_cases disk u m istream name attrib with ⟨file, he, hnew⟩ | he
    · rw [he] at h
      injection h with _ h2
      subst h2
      refine ⟨⟨file, by simp [getDVFile, HandleTable.set], (hopen file hnew).1,
        (hopen file hnew).2, hnew⟩, ?_⟩
      intro j hj
      simp [HandleTable.set, HandleTable.erase, hj]
    · rw [he] at h
      injection h with h1 _
      cases h1
  · constructor
    · simp [getDVFile, IMClose, HandleTable.erase]
    · intro j hj
      simp [IMClose, HandleTable.erase, hj]

/-- Instance of C14: the table holds the scenario file `example.dv` under the
identifier 1 and nothing under 2. `IMOpen(1, "new.dv", "new")` returns 0 and
the identifier 1 then resolves to the empty, open file `new.dv` in place of
the scenario file; `IMOpen(2, "new.dv", "new")` returns 0, the identifier 2
resolves to that file and the identifier 1 still to the scenario file. -/
theorem handle_table_lifecycle_witness :
    getDVFile (exampleTable (exampleFile scenarioHeader)) 1 = .ok (exampleFile scenarioHeader) ∧
    getDVFile (exampleTable (exampleFile scenarioHeader)) 2 = .error (.streamNotFound 2) ∧
    ((IMOpen (exampleDisk []) exampleIndeterminate (exampleTable (exampleFile scenarioHeader)) 1
        "new.dv" "new").1 = 0 ∧
      getDVFile (IMOpen (exampleDisk []) exampleIndeterminate
        (exampleTable (exampleFile scenarioHeader)) 1 "new.dv" "new").2 1 =
        .ok { _file := FStream.opened [], _path := "new.dv", _big_endian := false,
              hdr := IW_MRC_Header.zero, closed := false }) ∧
    ((IMOpen (exampleDisk []) exampleIndeterminate (exampleTable (exampleFile scenarioHeader)) 2
        "new.dv" "new").1 = 0 ∧
      getDVFile (IMOpen (exampleDisk []) exampleIndeterminate
        (exampleTable (exampleFile scenarioHeader)) 2 "new.dv" "new").2 2 =
        .ok { _file := FStream.opened [], _path := "new.dv", _big_endian := false,
              hdr := IW_MRC_Header.zero, closed := false } ∧
      (IMOpen (exampleDisk []) exampleIndeterminate (exampleTable (exampleFile scenarioHeader)) 2
        "new.dv" "new").2 1 = some (exampleFile scenarioHeader)) :=
  ⟨rfl, rfl,
   match (handle_table_lifecycle (exampleDisk []) exampleIndeterminate
      (exampleTable (exampleFile scenarioHeader)) 1 "new.dv" "new").1
      { _file := FStream.opened [], _path := "new.dv", _big_endian := false,
        hdr := IW_MRC_Header.zero, closed := false } (Or.inr ⟨rfl, rfl⟩) with
   | ⟨h1, h2, _⟩ => ⟨h1, h2⟩,
   match (handle_table_lifecycle (exampleDisk []) exampleIndeterminate
      (exampleTable (exampleFile scenarioHeader)) 2 "new.dv" "new").1
      { _file := FStream.opened [], _path := "new.dv", _big_endian := false,
        hdr := IW_MRC_Header.zero, closed := false } (Or.inr ⟨rfl, rfl⟩) with
   | ⟨h1, h2, _, _, h5⟩ => ⟨h1, h2, h5 1 (by decide)⟩⟩

/-- C20 (amended): when `IMOpen` returns 1, the entry of every other
identifier is as before the call and the identifier itself is not registered
afterwards: the table is unchanged if the identifier was not registered
before, and an entry registered under it before the call has been closed and
removed. -/
theorem IMOpen_failure (disk : Disk) (u : Indeterminate) (m : HandleTable) (istream : Int)
    (name attrib : String) (m1 : HandleTable)
    (h : IMOpen disk u m istream name attrib = (1, m1)) :
    (∀ j : Int, j ≠ istream → m1 j = m j) ∧
    getDVFile m1 istream = .error (.streamNotFound istream) ∧
    (m istream = none → m1 = m) := by
  have hm1 : m1 = m.erase istream := by
    rcases IMOpen_cases disk u m istream name attrib with ⟨file, he, -⟩ | he
    · rw [he] at h
      injection h with h1 _
      cases h1
    · rw [he] at h
      injection h with _ h2
      exact h2.symm
  subst hm1
  refine ⟨?_, ?_, ?_⟩
  · intro j hj
    simp [HandleTable.erase, hj]
  · simp [getDVFile, HandleTable.erase]
  · intro hn
    funext i
    unfold HandleTable.erase
    by_cases hi : i = istream
    · rw [if_pos hi, hi, hn]
    · rw [if_neg hi]

/-- C20 as stated fails: with the scenario file registered under the
identifier 1, `IMOpen(1, "example.dv", "rw")` (an unknown file mode) and
`IMOpen(1, "missing.dv", "ro")` (no such file) both return 1, and afterwards
the identifier 1 no longer resolves to the file it was registered to. -/
theorem IMOpen_failure_counterexample :
    getDVFile (exampleTable (exampleFile scenarioHeader)) 1 = .ok (exampleFile scenarioHeader) ∧
    (IMOpen (exampleDisk []) exampleIndeterminate (exampleTable (exampleFile scenarioHeader)) 1
      "example.dv" "rw").1 = 1 ∧
    getDVFile (IMOpen (exampleDisk []) exampleIndeterminate
      (exampleTable (exampleFile scenarioHeader)) 1 "example.dv" "rw").2 1 =
      .error (.streamNotFound 1) ∧
    (IMOpen (exampleDisk []) exampleIndeterminate (exampleTable (exampleFile scenarioHeader)) 1
      "missing.dv" "ro").1 = 1 ∧
    getDVFile (IMOpen (exampleDisk []) exampleIndeterminate
      (exampleTable (exampleFile scenarioHeader)) 1 "missing.dv" "ro").2 1 =
      .error (.streamNotFound 1) := by
  refine ⟨rfl, rfl, rfl, rfl, rfl⟩

/-- Instance of C20 (amended): `IMOpen(2, "missing.dv", "ro")` returns 1 and
leaves the entry of the identifier 1 and the absence of the identifier 2. -/
theorem IMOpen_failure_witness :
    (∀ j : Int, j ≠ 2 →
      (IMOpen (exampleDisk []) exampleIndeterminate (exampleTable (exampleFile scenarioHeader)) 2
        "missing.dv" "ro").2 j = exampleTable (exampleFile scenarioHeader) j) ∧
    getDVFile (IMOpen (exampleDisk []) exampleIndeterminate
      (exampleTable (exampleFile scenarioHeader)) 2 "missing.dv" "ro").2 2 =
      .error (.streamNotFound 2) :=
  match IMOpen_failure (exampleDisk []) exampleIndeterminate
      (exampleTable (exampleFile scenarioHeader)) 2 "missing.dv" "ro" _ rfl with
  | ⟨h1, h2, _⟩ => ⟨h1, h2⟩

/-! ## Positioning through the legacy call -/

/-- For a registered identifier `IMPosnZWT` always returns: 0 when
`setCurrentZWT` returns, 1 when it throws. -/
theorem IMPosnZWT_registered (m : HandleTable) (istream iz iw it : Int) (f : DVFile)
    (hreg : m istream = some f) :
    ((f.setCurrentZWT iz iw it).1 = .ok () → (IMPosnZWT m istream iz iw it).1 = .ok 0) ∧
    (∀ e, (f.setCurrentZWT iz iw it).1 = .error e → (IMPosnZWT m istream iz iw it).1 = .ok 1) := by
  unfold IMPosnZWT
  simp only [getDVFile, hreg]
  cases hs : f.setCurrentZWT iz iw it with
  | mk r f1 =>
    cases r with
    | ok v => exact ⟨fun _ => rfl, fun e he => (by cases he)⟩
    | error e0 => exact ⟨fun he => (by cases he), fun _ _ => rfl⟩

/-- For an identifier that is not registered the exception of `getDVFile`
leaves `IMPosnZWT`. -/
theorem IMPosnZWT_unregistered (m : HandleTable) (istream iz iw it : Int)
    (hreg : m istream = none) :
    IMPosnZWT m istream iz iw it = (.error (.streamNotFound istream), m) := by
  simp [IMPosnZWT, getDVFile, hreg]

/-- C15, the code at the failing input: on an empty handle table
`IMPosnZWT(5, 0, 0, 0)` does not return 1, the stream-not-found exception
leaves the function; on the scenario file registered under the identifier 1
the call returns 1 for `t = 3` (rejected) and 0 for `(z, w, t) = (0, 1, 2)`. -/
theorem IMPosnZWT_not_found_escapes :
    (IMPosnZWT (fun _ => none) 5 0 0 0).1 = .error (.streamNotFound 5) ∧
    (IMPosnZWT (exampleTable (exampleFile scenarioHeader)) 1 0 0 3).1 = .ok 1 ∧
    (IMPosnZWT (exampleTable (exampleFile scenarioHeader)) 1 0 1 2).1 = .ok 0 := by
  refine ⟨rfl, ?_, ?_⟩
  · exact (IMPosnZWT_registered _ 1 0 0 3 (exampleFile scenarioHeader) rfl).2 .timeIndex
      (by decide)
  · exact (IMPosnZWT_registered _ 1 0 1 2 (exampleFile scenarioHeader) rfl).1 (by decide)

/-! ## Indexes that the validation lets through or turns away -/

theorem extendedScenarioHeader_wf : extendedScenarioHeader.wf :=
  ⟨by decide, isBytes_replicate 24, isBytes_replicate 800⟩

/-- The validation has no lower bound: a negative index is accepted whenever
the other two are below their upper bounds. -/
theorem validateZWT_negative (f : DVFile) (z w t : Int) (ht : t < f.hdr.num_times)
    (hw : w < f.hdr.num_waves) (hz : z < f.hdr.num_planes) : f._validateZWT z w t = .ok () := by
  unfold DVFile._validateZWT
  rw [if_neg (by omega), if_neg (by omega), if_neg (by omega)]

/-- C18, the code at the failing input: for the scenario header with a
4096-byte extended header (`nx = 64`, `ny = 32`, `IW_SHORT`, pixel data from
offset 5120 on), `_validateZWT` accepts `(z, w, t) = (-1, 0, 0)`, the offset
computed is 1024, below the start of the pixel data, and `setCurrentZWT`
positions the stream there. -/
theorem setCurrentZWT_negative_index :
    extendedScenarioHeader.wf ∧ 0 ≤ extendedScenarioHeader.nx ∧ 0 ≤ extendedScenarioHeader.ny ∧
    (exampleFile extendedScenarioHeader).getPixelSize = .ok 2 ∧
    (exampleFile extendedScenarioHeader)._validateZWT (-1) 0 0 = .ok () ∧
    (exampleFile extendedScenarioHeader).section_seek_offset (-1) 0 0 = .ok 1024 ∧
    (1024 : Int) < 1024 + extendedScenarioHeader.inbsym ∧
    ((exampleFile extendedScenarioHeader).setCurrentZWT (-1) 0 0).1 = .ok () ∧
    ((exampleFile extendedScenarioHeader).setCurrentZWT (-1) 0 0).2._file.pos = 1024 ∧
    ((exampleFile extendedScenarioHeader).setCurrentZWT (-1) 0 0).2._file.fail = false := by
  refine ⟨extendedScenarioHeader_wf, by decide, by decide, rfl, by decide, by decide, by decide,
    by decide, by decide, by decide⟩

/-- With `num_waves = 0` or `num_times = 0` the validation turns away every
triple of non-negative indexes: with the time-index error if `t` is not below
`num_times`, with the wavelength-index error otherwise. -/
theorem validateZWT_zero_field (f : DVFile) (z w t : Int) (h0 : 0 ≤ w) (h1 : 0 ≤ t)
    (hz : f.hdr.num_waves = 0 ∨ f.hdr.num_times = 0) :
    f._validateZWT z w t =
      .error (if t ≥ f.hdr.num_times then .timeIndex else .wavelengthIndex) := by
  unfold DVFile._validateZWT
  by_cases ht : t ≥ f.hdr.num_times
  · rw [if_pos ht, if_pos ht]
  · rw [if_neg ht, if_neg ht]
    have hw : w ≥ f.hdr.num_waves := by
      rcases hz with hz | hz
      · omega
      · omega
    rw [if_pos hw]

theorem noWavesHeader_wf : noWavesHeader.wf :=
  ⟨by decide, isBytes_replicate 24, isBytes_replicate 800⟩

/-- C19: for every header with `nz >= 1` and `num_waves = 0` or
`num_times = 0`, `num_planes()` has a value and counts the planes with the
zero field taken as the divisor 1 (`nz` itself when both are zero), but that
is the only place where the zero counts as one: `_validateZWT` compares `w`
and `t` with the fields as they are, so `setCurrentZWT` turns away the triple
`(0, 0, 0)`, as every triple with `w >= 0` and `t >= 0`, with the time-index
error if `t >= num_times` and the wavelength-index error otherwise, and leaves
the object as it was. -/
theorem setCurrentZWT_zero_field (f : DVFile) (hwf : f.hdr.wf) (hnz : 1 ≤ f.hdr.nz)
    (hz : f.hdr.num_waves = 0 ∨ f.hdr.num_times = 0) :
    ((f.hdr.num_waves = 0 → f.hdr.num_planes? =
        (cDiv? f.hdr.nz 1).bind
          (fun q => cDiv? q (if f.hdr.num_times ≠ 0 then f.hdr.num_times else 1))) ∧
      (f.hdr.num_times = 0 → f.hdr.num_planes? =
        (cDiv? f.hdr.nz (if f.hdr.num_waves ≠ 0 then f.hdr.num_waves else 1)).bind
          (fun q => cDiv? q 1)) ∧
      (f.hdr.num_waves = 0 → f.hdr.num_times = 0 → f.hdr.num_planes? = some f.hdr.nz) ∧
      ∃ p : Int, f.hdr.num_planes? = some p) ∧
    (∀ z w t : Int, 0 ≤ w → 0 ≤ t →
      f._validateZWT z w t =
        .error (if t ≥ f.hdr.num_times then .timeIndex else .wavelengthIndex) ∧
      f.setCurrentZWT z w t =
        (.error (if t ≥ f.hdr.num_times then .timeIndex else .wavelengthIndex), f)) ∧
    (f.setCurrentZWT 0 0 0 = (.error .timeIndex, f) ∨
      f.setCurrentZWT 0 0 0 = (.error .wavelengthIndex, f)) := by
  have hi : isI32 f.hdr.nz := hwf.1.1.2.2.1
  have hset : ∀ z w t : Int, 0 ≤ w → 0 ≤ t →
      f._validateZWT z w t =
        .error (if t ≥ f.hdr.num_times then .timeIndex else .wavelengthIndex) ∧
      f.setCurrentZWT z w t =
        (.error (if t ≥ f.hdr.num_times then .timeIndex else .wavelengthIndex), f) := by
    intro z w t h0 h1
    have hv := validateZWT_zero_field f z w t h0 h1 hz
    refine ⟨hv, ?_⟩
    unfold DVFile.setCurrentZWT
    rw [hv]
  refine ⟨⟨?_, ?_, ?_, ?_⟩, hset, ?_⟩
  · intro hw
    simp [IW_MRC_Header.num_planes?, hw]
  · intro ht
    simp [IW_MRC_Header.num_planes?, ht]
  · intro hw ht
    unfold isI32 at hi
    have e : wrapInt32 f.hdr.nz = f.hdr.nz := wrapInt32_of_isI32 hi
    simp [IW_MRC_Header.num_planes?, hw, ht, cDiv?, e]
  · apply Option.ne_none_iff_exists'.mp
    rw [Ne, num_planes?_eq_none_iff f.hdr hi]
    omega
  · have h := (hset 0 0 0 (le_refl 0) (le_refl 0)).2
    by_cases ht : (0 : Int) ≥ f.hdr.num_times
    · rw [if_pos ht] at h
      exact Or.inl h
    · rw [if_neg ht] at h
      exact Or.inr h

/-- Instance of C19: the header of one plane with `num_waves = 0` and
`num_times = 1` has the plane count `1 / 1 / 1`, and `setCurrentZWT(0, 0, 0)`
throws the wavelength-index error. -/
theorem setCurrentZWT_zero_field_witness :
    noWavesHeader.num_planes? = (cDiv? 1 1).bind (fun q => cDiv? q 1) ∧
    (exampleFile noWavesHeader).setCurrentZWT 0 0 0 =
      (.error .wavelengthIndex, exampleFile noWavesHeader) :=
  ⟨(setCurrentZWT_zero_field (exampleFile noWavesHeader) noWavesHeader_wf (by decide)
      (Or.inl rfl)).1.1 rfl,
   ((setCurrentZWT_zero_field (exampleFile noWavesHeader) noWavesHeader_wf (by decide)
      (Or.inl rfl)).2.1 0 0 0 (by decide) (by decide)).2⟩

/-- C19 as stated fails: for a header of one plane (`nz = 1`) with
`num_waves = 0`, and for one with `num_times = 0`, `num_planes()` is 1, the
zero field counted as 1, but `setCurrentZWT(0, 0, 0)` throws the
wavelength-index error, respectively the time-index error: the first plane is
not addressable. -/
theorem setCurrentZWT_zero_field_counterexample :
    (noWavesHeader.nz = 1 ∧ noWavesHeader.num_waves = 0 ∧
      noWavesHeader.num_planes? = some 1 ∧
      (exampleFile noWavesHeader)._validateZWT 0 0 0 = .error .wavelengthIndex ∧
      (exampleFile noWavesHeader).setCurrentZWT 0 0 0 =
        (.error .wavelengthIndex, exampleFile noWavesHeader)) ∧
    (noTimesHeader.nz = 1 ∧ noTimesHeader.num_times = 0 ∧
      noTimesHeader.num_planes? = some 1 ∧
      (exampleFile noTimesHeader)._validateZWT 0 0 0 = .error .timeIndex ∧
      (exampleFile noTimesHeader).setCurrentZWT 0 0 0 =
        (.error .timeIndex, exampleFile noTimesHeader)) := by
  refine ⟨⟨rfl, rfl, by decide, by decide, rfl⟩, ⟨rfl, rfl, by decide, by decide, rfl⟩⟩

/-! ## Reading a section advances to the next one -/

theorem toStreamOff_modEq (v : Int) : toStreamOff v ≡ v [ZMOD 18446744073709551616] := by
  unfold Int.ModEq toStreamOff
  omega

theorem toSizeT_modEq (v : Int) : toSizeT v ≡ v [ZMOD 18446744073709551616] :=
  Int.mod_modEq v 18446744073709551616

theorem toStreamOff_ge (x : Int) : -9223372036854775808 ≤ toStreamOff x := by
  unfold toStreamOff
  omega

theorem toStreamOff_eq_of_modEq (v c : Int)
    (h : toStreamOff v ≡ c [ZMOD 18446744073709551616])
    (h1 : -9223372036854775808 ≤ c) (h2 : c < 9223372036854775808) : toStreamOff v = c := by
  have b1 := toStreamOff_ge v
  have b2 := toStreamOff_lt v
  unfold Int.ModEq at h
  omega

/-- The offset computed for a valid triple, in terms of its linear index. -/
theorem section_seek_offset_valid (f : DVFile) (fs : Int) (z w t : Int) (hwf : f.hdr.wf)
    (hfs : f.frame_size = .ok fs) (hv : f.hdr.validZWT z w t) :
    f.section_seek_offset z w t =
      .ok (toStreamOff (toSizeT (toSizeT (wrapInt32 (1024 + f.hdr.inbsym)) +
        toSizeT (toSizeT (t * f.hdr.num_waves * f.hdr.num_planes + w * f.hdr.num_planes + z) *
          fs)))) := by
  unfold DVFile.section_seek_offset
  rw [hfs]
  simp only [section_offset_no_wrap f.hdr z w t hwf hv]

/-- The offsets computed for two consecutive linear indexes differ by the
frame size, modulo `2^64`. -/
theorem section_seek_offset_succ (hs i fs : Int) :
    toStreamOff (toSizeT (toSizeT hs + toSizeT (toSizeT (i + 1) * fs))) ≡
      toStreamOff (toSizeT (toSizeT hs + toSizeT (toSizeT i * fs))) + fs
      [ZMOD 18446744073709551616] := by
  have a1 : toStreamOff (toSizeT (toSizeT hs + toSizeT (toSizeT (i + 1) * fs))) ≡
      hs + (i + 1) * fs [ZMOD 18446744073709551616] :=
    (toStreamOff_modEq _).trans ((toSizeT_modEq _).trans
      ((toSizeT_modEq hs).add ((toSizeT_modEq _).trans ((toSizeT_modEq _).mul_right fs))))
  have a2 : toStreamOff (toSizeT (toSizeT hs + toSizeT (toSizeT i * fs))) ≡
      hs + i * fs [ZMOD 18446744073709551616] :=
    (toStreamOff_modEq _).trans ((toSizeT_modEq _).trans
      ((toSizeT_modEq hs).add ((toSizeT_modEq _).trans ((toSizeT_modEq _).mul_right fs))))
  have e : hs + (i + 1) * fs = hs + i * fs + fs := by ring
  rw [e] at a1
  exact a1.trans (a2.symm.add_right fs)

/-- A frame size is a `size_t` value. -/
theorem frame_size_range (f : DVFile) (fs : Int) (hfs : f.frame_size = .ok fs) :
    0 ≤ fs ∧ fs < 18446744073709551616 := by
  unfold DVFile.frame_size at hfs
  split at hfs
  · cases hfs
  · injection hfs with hfs
    rw [← hfs]
    unfold toSizeT
    omega

/-- The call `readSec(buffer)` on an open `DVFile` with a registered mode. -/
theorem readSec_open (f : DVFile) (fs : Int) (hc : f.closed = false)
    (hfs : f.frame_size = .ok fs) :
    f.readSec =
      if toStreamOff fs < 0 then (.ok [], { f with _file := { f._file with fail := true } })
      else (.ok (f._file.read (toStreamOff fs).toNat).1,
        { f with _file := (f._file.read (toStreamOff fs).toNat).2 }) := by
  simp only [DVFile.readSec, hc, Bool.false_eq_true, if_false, hfs]

/-- C16: for a header with a positive frame size and a valid triple whose
linear index `i` is not the last one, after `setCurrentZWT(z, w, t)` and one
successful `readSec(buffer)` (the call returns and the stream has not failed:
the file, of a size below `2^63` as every file, holds the whole frame), the
stream position is the offset that `setCurrentZWT` computes for the valid
triple of linear index `i + 1`. -/
theorem readSec_advances (f f2 : DVFile) (fs : Int) (z w t z1 w1 t1 : Int) (bytes : List Nat)
    (hwf : f.hdr.wf) (hfs : f.frame_size = .ok fs) (hpos : 0 < fs)
    (hv : f.hdr.validZWT z w t) (hv1 : f.hdr.validZWT z1 w1 t1)
    (hnext : t1 * f.hdr.num_waves * f.hdr.num_planes + w1 * f.hdr.num_planes + z1 =
      t * f.hdr.num_waves * f.hdr.num_planes + w * f.hdr.num_planes + z + 1)
    (hsize : (f._file.data.length : Int) < 9223372036854775808)
    (hread : (f.setCurrentZWT z w t).2.readSec = (.ok bytes, f2))
    (hgood : f2._file.fail = false) :
    ∃ off : Int, f.section_seek_offset z1 w1 t1 = .ok off ∧ (f2._file.pos : Int) = off := by
  have hX := section_seek_offset_valid f fs z w t hwf hfs hv
  have hX1 := section_seek_offset_valid f fs z1 w1 t1 hwf hfs hv1
  rw [hnext] at hX1
  have hmod := section_seek_offset_succ (wrapInt32 (1024 + f.hdr.inbsym))
    (t * f.hdr.num_waves * f.hdr.num_planes + w * f.hdr.num_planes + z) fs
  generalize toStreamOff (toSizeT (toSizeT (wrapInt32 (1024 + f.hdr.inbsym)) +
    toSizeT (toSizeT (t * f.hdr.num_waves * f.hdr.num_planes + w * f.hdr.num_planes + z) *
      fs))) = X at hX hmod
  refine ⟨_, hX1, ?_⟩
  have hval := validateZWT_ok f z w t hv
  have hset : f.setCurrentZWT z w t = (.ok (), { f with _file := f._file.seek X }) := by
    simp only [DVFile.setCurrentZWT, hval, hX]
  rw [hset] at hread
  have hfs2 : DVFile.frame_size { f with _file := f._file.seek X } = .ok fs := hfs
  by_cases hc : f.closed = true
  · simp [DVFile.readSec, hc] at hread
  have hc' : f.closed = false := by simpa using hc
  have hread1 : DVFile.readSec { f with _file := f._file.seek X } = (.ok bytes, f2) := hread
  rw [readSec_open { f with _file := f._file.seek X } fs hc' hfs2] at hread1
  by_cases hneg : toStreamOff fs < 0
  · rw [if_pos hneg] at hread1
    simp only [Prod.mk.injEq, Except.ok.injEq] at hread1
    obtain ⟨-, hf2⟩ := hread1
    rw [← hf2] at hgood
    simp at hgood
  have hcount : toStreamOff fs = fs := by
    have hr := frame_size_range f fs hfs
    unfold toStreamOff at hneg ⊢
    omega
  rw [if_neg hneg, hcount] at hread1
  simp only [Prod.mk.injEq, Except.ok.injEq] at hread1
  clear hread
  have hread := hread1
  obtain ⟨-, hf2⟩ := hread
  subst hf2
  simp only at hgood ⊢
  -- the stream was usable and the seek took effect
  by_cases hfail : f._file.fail = true
  · simp [FStream.seek, FStream.read, hfail] at hgood
  have hfail' : f._file.fail = false := by simpa using hfail
  by_cases hok : f._file.is_open = true ∧ 0 ≤ X
  · have hseek : f._file.seek X = { f._file with pos := X.toNat } := by
      simp [FStream.seek, hfail', hok]
    rw [hseek] at hgood ⊢
    simp only [FStream.read, hfail', Bool.false_eq_true, if_false, hok.1, if_true,
      decide_eq_false_iff_not, not_lt] at hgood ⊢
    have hlen : (List.take fs.toNat (List.drop X.toNat f._file.data)).length ≤
        f._file.data.length - X.toNat := by
      rw [List.length_take, List.length_drop]
      omega
    have hle : (List.take fs.toNat (List.drop X.toNat f._file.data)).length ≤ fs.toNat := by
      rw [List.length_take]
      omega
    have hsum : (X : Int) + fs < 9223372036854775808 := by omega
    have hX1eq := toStreamOff_eq_of_modEq _ (X + fs) hmod (by omega) hsum
    rw [hX1eq]
    push_cast
    omega
  · have hseek : f._file.seek X = { f._file with fail := true } := by
      simp [FStream.seek, hfail', hok]
    rw [hseek] at hgood
    simp [FStream.read] at hgood

theorem twoPlaneHeader_wf : twoPlaneHeader.wf :=
  ⟨by decide, isBytes_replicate 24, isBytes_replicate 800⟩

set_option maxRecDepth 100000 in
/-- Instance of C16: in a file of two 1 x 1 byte frames, after
`setCurrentZWT(0, 0, 0)` and one `readSec` the stream is at 1025, the offset
of the triple `(1, 0, 0)`. -/
theorem readSec_advances_witness :
    ∃ off : Int, twoPlaneFile.section_seek_offset 1 0 0 = .ok off ∧
      ((((twoPlaneFile.setCurrentZWT 0 0 0).2.readSec).2._file.pos : Nat) : Int) = off :=
  readSec_advances twoPlaneFile ((twoPlaneFile.setCurrentZWT 0 0 0).2.readSec).2 1 0 0 0 1 0 0
    [7] twoPlaneHeader_wf rfl (by decide) (by decide) (by decide) (by decide) (by decide)
    (Prod.ext (by decide) rfl) (by decide)

end DV
